import Mathlib

/-!
# Verification of the dumpling vector-stimuli generator

This development shallowly embeds the core of the `dumpling` test-vector
generator (pin-state vector model, vector builder, JTAG driver, RISC-V debug
TAP and PULP advanced-debug TAP front ends, ELF byte-map producer, and the
HP93000 AVC writer/reader) and proves or refutes the specified properties of
the embedded operations.

Conventions of the embedding:

* Python dictionaries with string keys become association lists
  `List (String × β)`; assignment `d[k] = v` is `dictSet` (replace in place,
  append if absent), mirroring insertion-order semantics of `dict`.
* Pin state characters (single-character strings `'0'`, `'1'`, `'X'`, ...)
  become `Char`.
* `bitstring.BitArray` values are embedded as the data they carry: either a
  binary `String` in MSB-first order (what `.bin` renders) or a `Nat`
  together with an explicit width, whichever the surrounding code consumes.
  The package-wide `bitstring.lsb0 = True` mode means an index `i` denotes
  the i-th least significant bit; slices and packed construction are
  translated accordingly and each translation is noted where it happens.
* Functions that mutate `self` (the `VectorBuilder` pin state) are embedded
  by explicit state passing: they take and return the builder state.
-/

namespace Dumpling

/-- Python `d[k] = v` on an insertion-ordered dictionary represented as an
association list: replaces the value in place if the key is present,
otherwise appends the binding at the end. -/
def dictSet {β : Type} : List (String × β) → String → β → List (String × β)
  | [], k, v => [(k, v)]
  | (k', v') :: rest, k, v =>
    if k' = k then (k, v) :: rest else (k', v') :: dictSet rest k v

/-- Python `n * "c"`: a string of `n` copies of one character. -/
def strRepl (n : Nat) (c : Char) : String :=
  String.mk (List.replicate n c)

/-- Python `s[::-1]`: string reversal. -/
def strRev (s : String) : String :=
  String.mk s.data.reverse

/-- Declaration of a single pin, from `VectorBuilder.PinDecl`
(`{'name': physical_name, 'default': char, 'type': 'input'|'output'}`).
The optional `avc_name` field models the `AVCPinDecl` extension used by the
HP93000 reader (`pin.get('avc_name', pin['name'])`); plain pin declarations
leave it `none`. -/
structure PinDecl where
  name : String
  dflt : Char
  ptype : String
  avc_name : Option String
  deriving DecidableEq, Repr

/-- A normal vector, from the `NormalVector` TypedDict
`{'type': 'vec', 'vector': pin_state_map, 'repeat': int, 'comment': str?}`.
The `repeat` field is named `vrepeat` because `repeat` is reserved in Lean. -/
structure NormalVector where
  vector : List (String × Char)
  vrepeat : Nat
  comment : Option String
  deriving DecidableEq, Repr

/-- The runtime vector union, from
`Vector = Union[NormalVector, MatchedLoopVector, LoopVector]` with its
`type` tags `'vec'`, `'match_loop'` and `'loop'`.  The static annotations
declare the matched-loop sides as `Sequence[NormalVector]`, but at runtime
they are plain lists of vector dictionaries (and the AVC reader builds such
lists), so both sides are embedded as `List Vector`. -/
inductive Vector where
  | vec (v : NormalVector)
  | match_loop (cond_vectors idle_vectors : List Vector) (retries : Nat)
  | loop (loop_body : List Vector) (vrepeat : Nat)
  deriving Repr

/-- State of a `VectorBuilder` instance: the pin declaration dictionary, the
per-pin state dictionary, and the remaining instance attributes that
`__setattr__` silently writes into `self.__dict__` when the given name is
neither a pin-state key nor a declared logical pin name. -/
structure VectorBuilder where
  pins : List (String × PinDecl)
  pin_state : List (String × Char)
  attrs : List (String × Char)
  deriving Repr

/-- `VectorBuilder.__init__`: every pin starts at its declared default, and
no stray instance attributes exist. -/
def VectorBuilder.mk0 (pins : List (String × PinDecl)) : VectorBuilder :=
  { pins := pins
    pin_state := pins.map (fun p => (p.1, p.2.dflt))
    attrs := [] }

/-- One unfolding layer of `VectorBuilder.__setattr__`: if `name` is a key of
`pin_state`, assign the pin state; otherwise, if `name` is a declared logical
pin name, recurse with the pin's physical name; otherwise store the value as
a plain instance attribute (`self.__dict__[name] = value`) — no error is
raised.  The recursion of the source is realised with a fuel counter; the
fuel only runs out on cyclic pin declarations, where the Python original
would recurse without bound. -/
def setattrGo : Nat → List (String × PinDecl) → List (String × Char) →
    List (String × Char) → String → Char → List (String × Char) × List (String × Char)
  | 0, _, pin_state, attrs, _, _ => (pin_state, attrs)
  | fuel + 1, pins, pin_state, attrs, name, value =>
    if (pin_state.lookup name).isSome then
      (dictSet pin_state name value, attrs)
    else
      match pins.lookup name with
      | some decl => setattrGo fuel pins pin_state attrs decl.name value
      | none => (pin_state, dictSet attrs name value)

/-- `VectorBuilder.__setattr__` (pin assignment by logical or physical name;
integers are converted to their string form by the source before this logic
runs, so the embedded value is already a `Char`).  The recursion never
changes `self`, so only `pin_state` and `attrs` are recomputed. -/
def VectorBuilder.setattr (vb : VectorBuilder) (name : String) (value : Char) :
    VectorBuilder :=
  let r := setattrGo (vb.pins.length + 1) vb.pins vb.pin_state vb.attrs name value
  { pins := vb.pins, pin_state := r.1, attrs := r.2 }

/-- `VectorBuilder.vector(repeat, comment)`: snapshot of the current pin
state (the source deep-copies `pin_state`; association lists are immutable,
so the copy is the value itself).  Python defaults are `repeat=1`,
`comment=""`. -/
def VectorBuilder.vector (vb : VectorBuilder) (vrepeat : Nat)
    (comment : Option String) : Vector :=
  Vector.vec { vector := vb.pin_state, vrepeat := vrepeat, comment := comment }

/-- `VectorBuilder.matched_loop(condition_vectors, idle_vectors, retries)`:
the source builds and returns the matched-loop dictionary directly; it
performs no validation of the multiple-of-8 shape requirement that its own
docstring describes as an ATE limitation. -/
def VectorBuilder.matched_loop (condition_vectors idle_vectors : List Vector)
    (retries : Nat) : Vector :=
  Vector.match_loop condition_vectors idle_vectors retries

/-- `VectorBuilder.loop(loop_body, loop_repeat_count)`. -/
def VectorBuilder.loop (loop_body : List Vector) (loop_repeat_count : Nat) :
    Vector :=
  Vector.loop loop_body loop_repeat_count

/-- Element type of the list returned by `VectorBuilder.compress_vectors`.
The `'vec'` and `'loop'` branches append vector dictionaries, but the final
`else` branch executes `filtered_vectors += vec` on a matched-loop
dictionary, which extends the result list with the dictionary's *keys*
(plain strings) instead of appending the dictionary itself; the `pykey`
constructor carries such a stray key string. -/
inductive CompressedItem where
  | vec (v : NormalVector)
  | loop (loop_body : List CompressedItem) (vrepeat : Nat)
  | pykey (key : String)
  deriving Repr

/-- The four keys of a matched-loop dictionary in insertion order, as built
by `VectorBuilder.matched_loop` (and by the AVC reader): what
`filtered_vectors += vec` splices into the output for a matched loop. -/
def matchLoopKeys : List CompressedItem :=
  [CompressedItem.pykey "type", CompressedItem.pykey "cond_vectors",
   CompressedItem.pykey "idle_vectors", CompressedItem.pykey "retries"]

/-- Flush of the pending `current_vector` accumulator of
`compress_vectors`. -/
def flushCur : Option NormalVector → List CompressedItem
  | none => []
  | some v => [CompressedItem.vec v]

mutual

/-- `VectorBuilder.compress_vectors`: fold runs of adjacent normal vectors
with equal pin state and equal comment by summing `repeat`; recurse into
loop bodies; on any other vector (a matched loop) flush the accumulator and
execute `filtered_vectors += vec`, splicing the dictionary's keys into the
output.  The imperative accumulator loop is rendered as a recursion that
emits each flushed vector at the position the source appends it. -/
def compress_vectors : List Vector → List CompressedItem
  | vectors => compressGo vectors none

/-- The loop body of `compress_vectors` with the pending `current_vector`. -/
def compressGo : List Vector → Option NormalVector → List CompressedItem
  | [], cur => flushCur cur
  | Vector.vec nv :: rest, cur =>
    match cur with
    | none => compressGo rest (some nv)
    | some cv =>
      if cv.vector = nv.vector ∧ cv.comment = nv.comment then
        compressGo rest (some { cv with vrepeat := cv.vrepeat + nv.vrepeat })
      else
        CompressedItem.vec cv :: compressGo rest (some nv)
  | Vector.loop body vrep :: rest, cur =>
    flushCur cur ++
      (CompressedItem.loop (compress_vectors body) vrep :: compressGo rest none)
  | Vector.match_loop _ _ _ :: rest, cur =>
    flushCur cur ++ (matchLoopKeys ++ compressGo rest none)

end

/-- `VectorBuilder.pad_vectors(input_vectors, padding_vector)`: append the
padding vector `8 - len % 8` times (hence exactly 8 copies when the length
is already a multiple of 8). -/
def pad_vectors (input_vectors : List Vector) (padding_vector : Vector) :
    List Vector :=
  input_vectors ++ List.replicate (8 - input_vectors.length % 8) padding_vector

/-- The pin declaration from the `VectorBuilder` docstring, used as a
concrete test fixture. -/
def examplePins : List (String × PinDecl) :=
  [("chip_reset", { name := "pad_reset_n", dflt := '1', ptype := "input", avc_name := none }),
   ("trst", { name := "pad_jtag_trst", dflt := '1', ptype := "input", avc_name := none }),
   ("tms", { name := "pad_jtag_tms", dflt := '0', ptype := "input", avc_name := none }),
   ("tck", { name := "pad_jtag_tck", dflt := '0', ptype := "input", avc_name := none }),
   ("tdi", { name := "pad_jtag_tdi", dflt := '0', ptype := "input", avc_name := none }),
   ("tdo", { name := "pad_jtag_tdo", dflt := 'X', ptype := "output", avc_name := none })]

/-- A concrete normal vector over a one-pin state, used in counterexamples. -/
def nvA : NormalVector :=
  { vector := [("tck", '0')], vrepeat := 1, comment := some "a" }

/-- **C1.** `compress_vectors` does *not* leave matched loops untouched: the
`else` branch runs `filtered_vectors += vec` on the matched-loop dictionary,
which splices the dictionary's four key strings into the output instead of
appending the matched loop.  A preceding normal vector is preserved, so the
matched loop itself is the only casualty. -/
theorem C1_compress_matched_loop_bug :
    compress_vectors
        [Vector.vec nvA,
         Vector.match_loop [Vector.vec nvA] [Vector.vec nvA] 3] =
      [CompressedItem.vec nvA,
       CompressedItem.pykey "type", CompressedItem.pykey "cond_vectors",
       CompressedItem.pykey "idle_vectors", CompressedItem.pykey "retries"] := by
  simp [compress_vectors, compressGo, flushCur, matchLoopKeys, nvA]

/-- **C3 counterexample.** Assigning through `__setattr__` with a name that
is neither a declared logical pin name nor a declared physical pin name does
*not* fail with an `UnknownPin` error (no such error exists in the source):
the value is silently stored in `self.__dict__` and the per-pin state is
unchanged.  Here `"foo"` is neither a logical nor a physical name of the
docstring pin set. -/
theorem C3_setattr_unknown_pin_counterexample :
    ((VectorBuilder.mk0 examplePins).pins.lookup "foo" = none
      ∧ ∀ p ∈ (VectorBuilder.mk0 examplePins).pins, p.2.name ≠ "foo")
    ∧ ((VectorBuilder.mk0 examplePins).setattr "foo" '1').pin_state
        = (VectorBuilder.mk0 examplePins).pin_state
    ∧ ((VectorBuilder.mk0 examplePins).setattr "foo" '1').attrs
        = [("foo", '1')] := by
  refine ⟨⟨by decide, by decide⟩, by decide, by decide⟩

/-- **C3 (amended).** Assigning a pin state with a name that is neither a
key of the per-pin state nor a declared logical pin name raises no error:
`__setattr__` falls through to `self.__dict__[name] = value`, storing the
value as a plain instance attribute and leaving `pin_state` (and the pin
declarations) unchanged. -/
theorem C3_setattr_unknown_name_sets_attr (vb : VectorBuilder) (name : String)
    (value : Char) (h1 : vb.pin_state.lookup name = none)
    (h2 : vb.pins.lookup name = none) :
    vb.setattr name value = { vb with attrs := dictSet vb.attrs name value } := by
  simp [VectorBuilder.setattr, setattrGo, h1, h2]

/-- Witness for `C3_setattr_unknown_name_sets_attr` at the docstring pin
set and the undeclared name `"foo"`. -/
theorem C3_setattr_unknown_name_sets_attr_witness :
    (VectorBuilder.mk0 examplePins).setattr "foo" '1'
      = { VectorBuilder.mk0 examplePins with attrs := dictSet [] "foo" '1' } :=
  C3_setattr_unknown_name_sets_attr (VectorBuilder.mk0 examplePins) "foo" '1'
    (by decide) (by decide)

/-- **C4 counterexample.** `matched_loop` performs no validation: at an
input violating the claimed precondition (one condition vector, zero
retries) it does not fail with a `ShapeError` (no such error exists in the
source) but returns the matched-loop vector normally. -/
theorem C4_matched_loop_no_shape_check :
    VectorBuilder.matched_loop [Vector.vec nvA] [] 0
        = Vector.match_loop [Vector.vec nvA] [] 0
    ∧ ¬(([Vector.vec nvA] : List Vector).length % 8 = 0
        ∧ ([] : List Vector).length % 8 = 0 ∧ 1 ≤ 0) := by
  exact ⟨rfl, by decide⟩

/-- **C4 (amended).** `matched_loop(cond, idle, retries)` unconditionally
returns the matched-loop vector carrying exactly the given condition
vectors, idle vectors and retry count; the multiple-of-8/positive-retries
precondition is not checked and no `ShapeError` is raised. -/
theorem C4_matched_loop_returns_fields (condition_vectors idle_vectors : List Vector)
    (retries : Nat) :
    VectorBuilder.matched_loop condition_vectors idle_vectors retries
      = Vector.match_loop condition_vectors idle_vectors retries := rfl

/-- **C7.** `pad_vectors` returns a list whose length is a multiple of 8,
whose prefix is the input unchanged, with at least one appended copy of the
padding vector — and exactly 8 appended copies when the input length is
already a multiple of 8. -/
theorem C7_pad_vectors_spec (input_vectors : List Vector) (padding_vector : Vector) :
    (pad_vectors input_vectors padding_vector).length % 8 = 0
    ∧ (pad_vectors input_vectors padding_vector).take input_vectors.length
        = input_vectors
    ∧ input_vectors.length + 1 ≤ (pad_vectors input_vectors padding_vector).length
    ∧ (input_vectors.length % 8 = 0 →
        pad_vectors input_vectors padding_vector
          = input_vectors ++ List.replicate 8 padding_vector) := by
  have hlt : input_vectors.length % 8 < 8 := Nat.mod_lt _ (by omega)
  refine ⟨?_, ?_, ?_, ?_⟩
  · simp only [pad_vectors, List.length_append, List.length_replicate]
    omega
  · simp [pad_vectors, List.take_left]
  · simp only [pad_vectors, List.length_append, List.length_replicate]
    omega
  · intro h
    simp [pad_vectors, h]

/-- Witness for `C7_pad_vectors_spec` at a concrete three-vector input. -/
theorem C7_pad_vectors_spec_witness :
    (pad_vectors [Vector.vec nvA, Vector.vec nvA, Vector.vec nvA]
        (Vector.vec nvA)).length % 8 = 0
    ∧ (pad_vectors [Vector.vec nvA, Vector.vec nvA, Vector.vec nvA]
        (Vector.vec nvA)).take 3 = [Vector.vec nvA, Vector.vec nvA, Vector.vec nvA]
    ∧ 3 + 1 ≤ (pad_vectors [Vector.vec nvA, Vector.vec nvA, Vector.vec nvA]
        (Vector.vec nvA)).length
    ∧ (3 % 8 = 0 →
        pad_vectors [Vector.vec nvA, Vector.vec nvA, Vector.vec nvA] (Vector.vec nvA)
          = [Vector.vec nvA, Vector.vec nvA, Vector.vec nvA]
              ++ List.replicate 8 (Vector.vec nvA)) :=
  C7_pad_vectors_spec [Vector.vec nvA, Vector.vec nvA, Vector.vec nvA]
    (Vector.vec nvA)

/-! ## ELF byte-map producer (`Common/ElfParser.py`) -/

/-- Python `v & ~m` for nonnegative `v`, `m`: clears in `v` the bits set in
`m`. -/
def pyAndNot (v m : Nat) : Nat := v - Nat.land v m

/-- Python `int.from_bytes(data, byteorder='little')`: the first byte is the
least significant. -/
def intFromBytesLE (data : List Nat) : Nat :=
  data.foldr (fun b acc => b + 256 * acc) 0

/-- Python `int(s)` on a decimal digit string (the only form the byte-map
keys take: they are produced by `str(aligned_base)`). -/
def pyInt (s : String) : Nat :=
  s.data.foldl (fun a c => 10 * a + (c.toNat - 48)) 0

/-- `ElfParser.__add_mem_word(base, size, data, width)`: aggregate up to
`width - (base mod width)` bytes of `data` into the word anchored at the
`width`-aligned address below `base` (`base & ~(width-1)`), merging with the
value already stored in `self.mem` (keys are `str(aligned_base)`, a missing
key reads as 0).  The merge first executes
`value &= ~(((1 << width) - 1) << (shift * 8))` — note the mask is
`width` *bits* wide, not `width` bytes — and then ORs in the little-endian
value of the consumed bytes shifted by `shift * 8`.  Returns the updated map
and the number of bytes consumed. -/
def add_mem_word (mem : List (String × Nat)) (base size : Nat) (data : List Nat)
    (width : Nat) : List (String × Nat) × Nat :=
  let aligned_base := pyAndNot base (width - 1)
  let shift := base - aligned_base
  let iter_size := min (width - shift) size
  let value := (mem.lookup (Nat.repr aligned_base)).getD 0
  let value := pyAndNot value (((1 <<< width) - 1) <<< (shift * 8))
  let value := Nat.lor value (intFromBytesLE (data.take iter_size) <<< (shift * 8))
  (dictSet mem (Nat.repr aligned_base) value, iter_size)

/-- The `while size > 0` loop of `ElfParser.__add_mem`, driven by a fuel
counter.  Each productive step consumes `iter_size ≥ 1` bytes whenever
`width ≥ 1`, so fuel `size` suffices; `width = 0` would loop forever in the
source and exhausts the fuel here. -/
def add_mem_go : Nat → List (String × Nat) → Nat → Nat → List Nat → Nat →
    List (String × Nat)
  | 0, mem, _, _, _, _ => mem
  | fuel + 1, mem, base, size, data, width =>
    if size = 0 then mem
    else
      let step := add_mem_word mem base size data width
      add_mem_go fuel step.1 (base + step.2) (size - step.2) (data.drop step.2) width

/-- `ElfParser.__add_mem(base, size, data, width)`. -/
def add_mem (mem : List (String × Nat)) (base size : Nat) (data : List Nat)
    (width : Nat) : List (String × Nat) :=
  add_mem_go size mem base size data width

/-- **C9.** The byte-map producer aggregates bytes into little-endian words
anchored at aligned addresses (first conjunct: a fresh 4-byte write at
0x1000 stores `0x44332211`), but a partial write over an existing word does
*not* replace the corresponding byte positions: the clearing mask
`((1 << width) - 1) << (shift * 8)` is only `width` bits wide (width is in
*bytes*), so rewriting the first byte of an all-`0xFF` word with `0x00`
leaves `0xFFFFFFF0` instead of the read-modify-write result `0xFFFFFF00`
the claim requires. -/
theorem C9_add_mem_word_merge_bug :
    (add_mem [] 4096 4 [0x11, 0x22, 0x33, 0x44] 4).lookup (Nat.repr 4096)
        = some 0x44332211
    ∧ (add_mem (add_mem [] 0 4 [0xFF, 0xFF, 0xFF, 0xFF] 4) 0 1 [0x00] 4).lookup
        (Nat.repr 0) = some 0xFFFFFFF0
    ∧ (0xFFFFFFF0 : Nat) ≠ 0xFFFFFF00 := by
  refine ⟨by decide, by decide, by decide⟩

/-! ## `PULPJtagTap.loadL2` burst splitting (`JTAGTaps/PulpJTAGTap.py`) -/

/-- Python truthiness of the `start_addr` / `prev_addr` loop variables of
`loadL2`: `None` and `0` are falsy. -/
def pyTruthyNat : Option Nat → Bool
  | none => false
  | some 0 => false
  | some (_ + 1) => true

/-- Lexicographic code-point comparison of character lists: Python `<` on
strings. -/
def charListLt : List Char → List Char → Bool
  | [], [] => false
  | [], _ :: _ => true
  | _ :: _, [] => false
  | a :: as, b :: bs =>
    if a.toNat < b.toNat then true
    else if b.toNat < a.toNat then false
    else charListLt as bs

/-- Python `a < b` on strings. -/
def strLtB (a b : String) : Bool := charListLt a.data b.data

/-- Stable ascending insertion of a key/value pair, modelling Python
`sorted` on the `(str, int)` items of the byte-map (string keys are compared
lexicographically; the keys are unique, so the value component never
decides). -/
def insertByKey (x : String × Nat) : List (String × Nat) → List (String × Nat)
  | [] => [x]
  | y :: ys => if strLtB y.1 x.1 then y :: insertByKey x ys else x :: y :: ys

/-- Python `sorted(stimuli.items())` for the byte-map. -/
def sortPairsByKey (l : List (String × Nat)) : List (String × Nat) :=
  l.foldr insertByKey []

/-- The burst-splitting loop of `PULPJtagTap.loadL2`, recording the
`(start_addr, burst_data)` argument pair of each `write32` call in order.
Faithful to the source's Python truthiness tests: `if not start_addr:`
re-seeds the burst start whenever `start_addr` is `None` *or `0`*, and the
split condition `if prev_addr and (prev_addr + 4 != int(addr) or
len(burst_data) >= 256):` is skipped entirely when `prev_addr` is `None` or
`0`.  The final burst is emitted after the loop (`start_addr` would be
`None` there only for an empty byte-map, where the source crashes; that
dead case reads as address 0 here). -/
def loadL2_go : List (Nat × Nat) → Option Nat → Option Nat → List Nat →
    List (Nat × List Nat)
  | [], start_addr, _, burst_data => [(start_addr.getD 0, burst_data)]
  | (addr, word) :: rest, start_addr, prev_addr, burst_data =>
    let start_addr := if pyTruthyNat start_addr then start_addr else some addr
    if pyTruthyNat prev_addr
        ∧ (prev_addr.getD 0 + 4 ≠ addr ∨ 256 ≤ burst_data.length) then
      (start_addr.getD 0, burst_data) ::
        loadL2_go rest (some addr) (some addr) [word]
    else
      loadL2_go rest start_addr (some addr) (burst_data ++ [word])

/-- The sequence of `write32(start_addr, burst_data)` calls issued by
`PULPJtagTap.loadL2` for a parsed byte-map (keys are the decimal strings
produced by the ELF parser; iteration order is Python `sorted` on those
strings, and each address is read back with `int(addr)`). -/
def loadL2_bursts (stimuli : List (String × Nat)) : List (Nat × List Nat) :=
  loadL2_go ((sortPairsByKey stimuli).map (fun p => (pyInt p.1, p.2))) none none []

/-- **C8.** For the byte-map `{0x1c008080, 0x1c008084, 0x1c008100}` the load
does split into exactly the two claimed bursts (second conjunct;
`469794944 = 0x1c008080`, `469795072 = 0x1c008100`).  But the splitting is
not maximal-contiguous-run splitting for *every* byte-map: an entry at
address 0 defeats the truthiness tests (`if not start_addr:`,
`if prev_addr and ...`), so `{0x0, 0x100}` yields a single burst containing
both words and carrying the wrong start address `0x100` (first conjunct),
where the claim requires two bursts starting at `0x0` and `0x100`. -/
theorem C8_loadL2_burst_splitting :
    loadL2_bursts [("0", 0x11111111), ("256", 0x22222222)]
        = [(256, [0x11111111, 0x22222222])]
    ∧ loadL2_bursts
        [("469794944", 0x11111111), ("469794948", 0x22222222),
         ("469795072", 0x33333333)]
        = [(469794944, [0x11111111, 0x22222222]), (469795072, [0x33333333])] := by
  refine ⟨by decide, by decide⟩

/-! ## Bit-string helpers (`Common/Utilities.py` and `bitstring` renderings) -/

/-- The numeric value of a binary digit character (`'1'` counts 1, anything
else 0; inputs are always `'0'`/`'1'`). -/
def bitVal (c : Char) : Nat := if c = '1' then 1 else 0

/-- Lowercase hexadecimal digit for `n < 16`, as `bitstring`'s `.hex`
renders it. -/
def hexDigitChar (n : Nat) : Char :=
  if n < 10 then Char.ofNat (48 + n) else Char.ofNat (87 + n)

/-- Render a list of binary digit characters (MSB first, length a multiple
of 4) as lowercase hexadecimal, nibble by nibble from the left: the `.hex`
rendering of the corresponding `BitArray`. -/
def binToHex : List Char → String
  | a :: b :: c :: d :: rest =>
    String.singleton (hexDigitChar (8 * bitVal a + 4 * bitVal b + 2 * bitVal c + bitVal d))
      ++ binToHex rest
  | _ => ""

/-- `Utilities.pp_binstr` on the binary string carried by the `BitArray`
argument (MSB-first, as `.bin` renders it).  Width < 7 renders as
`0b...`; otherwise the low `4 * (len / 4)` bits (in `lsb0` mode the slice
`bits[0:num_hex_digits*4]` is the rightmost characters of the MSB-first
string) render as hex, preceded by a `0b` tail of the remaining high bits
when the width is not a multiple of 4 (the source joins the two parts in
reversed order inside brackets). -/
def pp_binstr (s : String) : String :=
  if s.length < 7 then "0b" ++ s
  else
    let r := s.length % 4
    let hexPart := binToHex (s.data.drop r)
    if 0 < r then
      "[0b" ++ String.mk (s.data.take r) ++ ", 0x" ++ hexPart ++ "]"
    else
      "0x" ++ hexPart

/-- The MSB-first binary rendering (`.bin`) of an unsigned value at an
explicit width: `BitArray(uint=n, length=w).bin`. -/
def natToBin (w n : Nat) : String :=
  String.mk ((List.range w).map (fun i => if n / 2 ^ (w - 1 - i) % 2 = 1 then '1' else '0'))

/-- Python truthiness of an optional string (`None` and `""` are falsy). -/
def strTruthy : Option String → Bool
  | none => false
  | some s => !(s == "")

/-- `all(map(lambda x: x in ['x', 'X'], expected_chain))`. -/
def allX (s : String) : Bool :=
  s.data.all (fun c => c == 'x' || c == 'X')

/-- Python `"{}".format(x)` for an optional string: `None` renders as
`"None"`. -/
def pyFormatOptStr : Option String → String
  | none => "None"
  | some s => s

/-! ## JTAG chain model and driver (`JTAGTaps/JTAGTap.py`, `Drivers/JTAG.py`) -/

/-- A JTAG register of a TAP (`JTAGRegister`). -/
structure JTAGRegister where
  name : String
  IR_value : String
  DR_size : Nat
  default_value : Option String
  deriving DecidableEq, Repr

/-- A JTAG TAP (`JTAGTap`): name, IR width and its register list.  The
Python object's `==` is object identity; here distinct TAPs of a chain are
kept apart by hypotheses of the theorems that use a chain. -/
structure JTAGTap where
  name : String
  IR_size : Nat
  registers : List JTAGRegister
  deriving DecidableEq, Repr

/-- The BYPASS register that `JTAGTap.__init__` creates:
`JTAGRegister('BYPASS', IR_size * "1", 1)`. -/
def JTAGTap.reg_bypass (tap : JTAGTap) : JTAGRegister :=
  { name := "BYPASS", IR_value := strRepl tap.IR_size '1', DR_size := 1,
    default_value := none }

/-- `JTAGTap.__init__(name, IR_size, driver)`: a fresh TAP containing only
its BYPASS register. -/
def mkJTAGTap (name : String) (IR_size : Nat) : JTAGTap :=
  { name := name, IR_size := IR_size,
    registers := [{ name := "BYPASS", IR_value := strRepl IR_size '1', DR_size := 1,
                    default_value := none }] }

/-- The chain state of a `JTAGDriver` (the vector builder it drives is
passed explicitly to each primitive). -/
structure JTAGDriver where
  chain : List JTAGTap
  deriving Repr

/-- `JTAGDriver.add_tap`: `self.chain.insert(0, jtag_tap)` — the TAP added
last (the one farthest from TDI) ends up at index 0. -/
def JTAGDriver.add_tap (d : JTAGDriver) (tap : JTAGTap) : JTAGDriver :=
  { d with chain := tap :: d.chain }

/-- `JTAGDriver.set_jtag_default_values`. -/
def set_jtag_default_values (vb : VectorBuilder) : VectorBuilder :=
  ((((vb.setattr "tck" '0').setattr "trst" '1').setattr "tms" '0').setattr
      "tdi" '0').setattr "tdo" 'X'

/-- `JTAGDriver.jtag_idle_vector(repeat, comment)`. -/
def jtag_idle_vector (vb : VectorBuilder) (vrepeat : Nat) (comment : Option String) :
    VectorBuilder × Vector :=
  let vb := set_jtag_default_values vb
  (vb, vb.vector vrepeat comment)

/-- `JTAGDriver.jtag_idle_vectors(count)`: one idle vector, replicated. -/
def jtag_idle_vectors (vb : VectorBuilder) (count : Nat) :
    VectorBuilder × List Vector :=
  let r := jtag_idle_vector vb 1 none
  (r.1, List.replicate count r.2)

/-- `JTAGDriver.jtag_goto_shift_dr(comment)`: three vectors. -/
def jtag_goto_shift_dr (vb : VectorBuilder) (comment : Option String) :
    VectorBuilder × List Vector :=
  let vb := set_jtag_default_values vb
  let vb := vb.setattr "tms" '1'
  let vb := vb.setattr "tck" '0'
  let v1 := vb.vector 1 comment
  let vb := vb.setattr "tck" '1'
  let vb := vb.setattr "tms" '0'
  let v2 := vb.vector 1 (some "")
  let v3 := vb.vector 1 (some "Goto shift DR")
  (vb, [v1, v2, v3])

/-- `JTAGDriver.jtag_goto_shift_ir(comment)`: four vectors. -/
def jtag_goto_shift_ir (vb : VectorBuilder) (comment : Option String) :
    VectorBuilder × List Vector :=
  let vb := set_jtag_default_values vb
  let vb := vb.setattr "tms" '1'
  let vb := vb.setattr "tck" '0'
  let v1 := vb.vector 1 comment
  let vb := vb.setattr "tck" '1'
  let v2 := vb.vector 1 (some "")
  let vb := vb.setattr "tms" '0'
  let v3 := vb.vector 1 (some "")
  let v4 := vb.vector 1 (some "Goto shift IR")
  (vb, [v1, v2, v3, v4])

/-- The per-bit loop of `JTAGDriver.jtag_shift`: on each cycle drive TDI
with the current chain bit, drive TDO with the current expected character
when comparison is enabled, pre-drive TMS to 1 on the last cycle unless
`noexit`, and emit one vector.  The full comment is attached to the first
vector only.  `exp` is consumed in lockstep with the chain (the source
indexes `expected_chain[idx]`; all call sites pass an expected string at
least as long as the chain, so the `headD` default is never read). -/
def jtag_shiftGo : VectorBuilder → List Char → List Char → Bool → Bool → Bool →
    String → VectorBuilder × List Vector
  | vb, [], _, _, _, _, _ => (vb, [])
  | vb, bit :: restBits, exp, useTdo, hasExp, noexit, comment =>
    let vb := vb.setattr "tdi" bit
    let vb := if useTdo then vb.setattr "tdo" (exp.headD 'X') else vb
    let vb := if restBits = [] ∧ ¬noexit then vb.setattr "tms" '1' else vb
    let v := vb.vector 1 (some (comment ++ "Shift bit " ++ String.singleton bit ++
        (if hasExp then " expecting tdo " ++ String.singleton (exp.headD 'X') else "")))
    let next := jtag_shiftGo vb restBits exp.tail useTdo hasExp noexit ""
    (next.1, v :: next.2)

/-- `JTAGDriver.jtag_shift(chain, expected_chain, comment, noexit)`. -/
def jtag_shift (vb : VectorBuilder) (chain : String) (expected_chain : Option String)
    (comment : Option String) (noexit : Bool) : VectorBuilder × List Vector :=
  let vb := set_jtag_default_values vb
  let vb := vb.setattr "tck" '1'
  let vb := vb.setattr "tms" '0'
  let comment := comment.getD "" ++ "/Start shifting. "
  let hasExp := strTruthy expected_chain
  let useTdo := hasExp && !allX (expected_chain.getD "")
  let shifted := jtag_shiftGo vb chain.data (expected_chain.getD "").data useTdo
      hasExp noexit comment
  let vbExit := if noexit then shifted.1 else shifted.1.setattr "tms" '0'
  let exitVecs : List Vector :=
    if noexit then []
    else
      [shifted.1.vector 1 (some "goto Update DR/IR"),
       (shifted.1.setattr "tms" '0').vector 1 (some "goto run test idle"),
       (shifted.1.setattr "tms" '0').vector 1 (some "idle")]
  (vbExit, shifted.2 ++ exitVecs)

/-- The chain composition loop of `JTAGDriver.jtag_set_ir`: reversed
`ir_value` at the target TAP's position, reversed BYPASS IR (all ones)
everywhere else, concatenated over `self.chain` from index 0. -/
def chainIR (d : JTAGDriver) (tap : JTAGTap) (ir_value : String) : String :=
  d.chain.foldl (fun acc el =>
    acc ++ (if el = tap then strRev ir_value else strRev el.reg_bypass.IR_value)) ""

/-- `JTAGDriver.jtag_set_ir(tap, ir_value, comment)`. -/
def jtag_set_ir (d : JTAGDriver) (vb : VectorBuilder) (tap : JTAGTap)
    (ir_value : String) (comment : Option String) : VectorBuilder × List Vector :=
  let comment := comment.getD "" ++ "/Set IR of tap " ++ tap.name ++ " to "
      ++ pp_binstr ir_value
  let g := jtag_goto_shift_ir vb (some comment)
  let s := jtag_shift g.1 (chainIR d tap ir_value) none (some comment) false
  (s.1, g.2 ++ s.2)

/-- The DR chain composition loop of `JTAGDriver.jtag_set_dr`: reversed
`dr_value` at the target, one `'0'` per bypassed TAP. -/
def chainDR (d : JTAGDriver) (tap : JTAGTap) (dr_value : String) : String :=
  d.chain.foldl (fun acc el =>
    acc ++ (if el = tap then strRev dr_value else "0")) ""

/-- The expected-chain composition loop of `JTAGDriver.jtag_set_dr`:
reversed `expected_dr_value` at the target, one `'X'` per bypassed TAP. -/
def chainDRExpected (d : JTAGDriver) (tap : JTAGTap) (expected_dr_value : String) :
    String :=
  d.chain.foldl (fun acc el =>
    acc ++ (if el = tap then strRev expected_dr_value else "X")) ""

/-- `JTAGDriver.jtag_set_dr(tap, dr_value, expected_dr_value, comment,
noexit)`.  When `expected_dr_value` is falsy the expected chain stays the
empty string (which `jtag_shift` in turn treats as "no comparison"). -/
def jtag_set_dr (d : JTAGDriver) (vb : VectorBuilder) (tap : JTAGTap)
    (dr_value : String) (expected_dr_value : Option String)
    (comment : Option String) (noexit : Bool) : VectorBuilder × List Vector :=
  let comment := comment.getD "" ++ "/Set DR of tap " ++ tap.name ++ " to "
      ++ pp_binstr dr_value
  let comment := comment ++
      (if strTruthy expected_dr_value && !allX (expected_dr_value.getD "") then
        " expecting to read " ++ expected_dr_value.getD ""
      else "")
  let g := jtag_goto_shift_dr vb (some comment)
  let chain := chainDR d tap dr_value
  let expected_chain :=
    if strTruthy expected_dr_value then chainDRExpected d tap (expected_dr_value.getD "")
    else ""
  let s := jtag_shift g.1 chain (some expected_chain) comment noexit
  (s.1, g.2 ++ s.2)

/-- `JTAGDriver.read_reg(tap, reg, reg_length, expected_value, comment)`.
The source raises `ValueError` when `reg` is not one of `tap`'s registers;
every use in this development passes a registered register, so that dead
branch returns no vectors here. -/
def read_reg (d : JTAGDriver) (vb : VectorBuilder) (tap : JTAGTap)
    (reg : JTAGRegister) (reg_length : Nat) (expected_value : Option String)
    (comment : Option String) : VectorBuilder × List Vector :=
  if reg ∈ tap.registers then
    let a := jtag_set_ir d vb tap reg.IR_value comment
    let b := jtag_set_dr d a.1 tap (strRepl reg_length '0') expected_value
        (some ("Read value from DR. Expected value: " ++ pyFormatOptStr expected_value))
        false
    (b.1, a.2 ++ b.2)
  else (vb, [])

/-- `JTAGDriver.write_reg(tap, reg, value, comment)`; same remark on the
`ValueError` branch as for `read_reg`. -/
def write_reg (d : JTAGDriver) (vb : VectorBuilder) (tap : JTAGTap)
    (reg : JTAGRegister) (value : String) (comment : Option String) :
    VectorBuilder × List Vector :=
  if reg ∈ tap.registers then
    let a := jtag_set_ir d vb tap reg.IR_value comment
    let b := jtag_set_dr d a.1 tap value none
        (some ("Write value " ++ value ++ " to DR.")) false
    (b.1, a.2 ++ b.2)
  else (vb, [])

/-! ## Dictionary and pin-state lemmas -/

theorem lookup_dictSet {β : Type} (m : List (String × β)) (k k' : String) (v : β) :
    (dictSet m k v).lookup k' = if k' = k then some v else m.lookup k' := by
  induction m with
  | nil =>
    by_cases h : k' = k
    · simp [dictSet, List.lookup, h]
    · simp [dictSet, List.lookup, h, beq_eq_false_iff_ne.mpr h]
  | cons p rest ih =>
    obtain ⟨a, b⟩ := p
    simp only [dictSet]
    by_cases hak : a = k
    · subst hak
      simp only [if_pos rfl]
      by_cases h : k' = a
      · simp [List.lookup, h]
      · simp [List.lookup, h, beq_eq_false_iff_ne.mpr h]
    · simp only [if_neg hak]
      by_cases h : k' = a
      · have hkk : ¬ k' = k := fun hh => hak (h.symm.trans hh)
        simp [List.lookup, h, hkk, hak]
      · simp [List.lookup, h, beq_eq_false_iff_ne.mpr h, ih]

/-- Transport of a predicate through an if-then-else. -/
theorem ite_pred {α : Sort _} (Q : α → Prop) (c : Prop) [Decidable c] (a b : α)
    (ha : Q a) (hb : Q b) : Q (if c then a else b) := by
  split_ifs <;> assumption

/-- The set of JTAG logical pins the driver drives, all present in the
builder's pin state. -/
def jtagPins (vb : VectorBuilder) : Prop :=
  (vb.pin_state.lookup "tck").isSome ∧ (vb.pin_state.lookup "trst").isSome
    ∧ (vb.pin_state.lookup "tms").isSome ∧ (vb.pin_state.lookup "tdi").isSome
    ∧ (vb.pin_state.lookup "tdo").isSome

instance (vb : VectorBuilder) : Decidable (jtagPins vb) := by
  unfold jtagPins; infer_instance

theorem setattr_known (vb : VectorBuilder) (name : String) (v : Char)
    (h : (vb.pin_state.lookup name).isSome) :
    vb.setattr name v = { vb with pin_state := dictSet vb.pin_state name v } := by
  simp [VectorBuilder.setattr, setattrGo, h]

theorem jtagPins_setattr (vb : VectorBuilder) (name : String) (v : Char)
    (h : jtagPins vb) (hn : (vb.pin_state.lookup name).isSome) :
    jtagPins (vb.setattr name v) := by
  obtain ⟨h1, h2, h3, h4, h5⟩ := h
  rw [setattr_known vb name v hn]
  refine ⟨?_, ?_, ?_, ?_, ?_⟩ <;>
    · show ((dictSet vb.pin_state name v).lookup _).isSome
      rw [lookup_dictSet]
      split_ifs <;> simp_all

theorem lookup_setattr_self (vb : VectorBuilder) (name : String) (v : Char)
    (hn : (vb.pin_state.lookup name).isSome) :
    ((vb.setattr name v).pin_state.lookup name) = some v := by
  rw [setattr_known vb name v hn]
  show (dictSet vb.pin_state name v).lookup name = some v
  rw [lookup_dictSet]; simp

theorem lookup_setattr_other (vb : VectorBuilder) (name other : String) (v : Char)
    (hn : (vb.pin_state.lookup name).isSome) (hne : other ≠ name) :
    ((vb.setattr name v).pin_state.lookup other) = vb.pin_state.lookup other := by
  rw [setattr_known vb name v hn]
  show (dictSet vb.pin_state name v).lookup other = _
  rw [lookup_dictSet]; simp [hne]

theorem jtagPins_defaults (vb : VectorBuilder) (h : jtagPins vb) :
    jtagPins (set_jtag_default_values vb) := by
  unfold set_jtag_default_values
  have h1 := jtagPins_setattr vb "tck" '0' h h.1
  have h2 := jtagPins_setattr _ "trst" '1' h1 h1.2.1
  have h3 := jtagPins_setattr _ "tms" '0' h2 h2.2.2.1
  have h4 := jtagPins_setattr _ "tdi" '0' h3 h3.2.2.2.1
  exact jtagPins_setattr _ "tdo" 'X' h4 h4.2.2.2.2

/-! ## C6: shift-IR bit stream of `jtag_set_ir` -/

/-- The TDI state character carried by a (normal) vector. -/
def tdiChar : Vector → Option Char
  | Vector.vec v => v.vector.lookup "tdi"
  | _ => none

/-- The builder invariant carried through one shift cycle: the JTAG pins are
present and TDI reads the shifted bit. -/
def shiftInv (bit : Char) (vb : VectorBuilder) : Prop :=
  jtagPins vb ∧ vb.pin_state.lookup "tdi" = some bit

theorem shiftInv_setattr (vb : VectorBuilder) (bit : Char) (name : String) (v : Char)
    (h : shiftInv bit vb) (hn : (vb.pin_state.lookup name).isSome)
    (hne : name ≠ "tdi") : shiftInv bit (vb.setattr name v) :=
  ⟨jtagPins_setattr vb name v h.1 hn,
   (lookup_setattr_other vb name "tdi" v hn (fun hh => hne hh.symm)).trans h.2⟩

theorem jtag_shiftGo_tdi : ∀ (bits : List Char) (exp : List Char)
    (useTdo hasExp noexit : Bool) (comment : String) (vb : VectorBuilder),
    jtagPins vb →
    ((jtag_shiftGo vb bits exp useTdo hasExp noexit comment).2).map tdiChar
      = bits.map some := by
  intro bits
  induction bits with
  | nil => intro exp useTdo hasExp noexit comment vb _; simp [jtag_shiftGo]
  | cons bit rest ih =>
    intro exp useTdo hasExp noexit comment vb h
    have hinv1 : shiftInv bit (vb.setattr "tdi" bit) :=
      ⟨jtagPins_setattr vb "tdi" bit h h.2.2.2.1,
       lookup_setattr_self vb "tdi" bit h.2.2.2.1⟩
    have hinv2 : shiftInv bit
        (if useTdo then (vb.setattr "tdi" bit).setattr "tdo" (exp.headD 'X')
          else vb.setattr "tdi" bit) :=
      ite_pred (shiftInv bit) _ _ _
        (shiftInv_setattr _ bit "tdo" _ hinv1 hinv1.1.2.2.2.2 (by decide)) hinv1
    have hinv3 : shiftInv bit
        (if rest = [] ∧ ¬noexit then
          (if useTdo then (vb.setattr "tdi" bit).setattr "tdo" (exp.headD 'X')
            else vb.setattr "tdi" bit).setattr "tms" '1'
          else (if useTdo then (vb.setattr "tdi" bit).setattr "tdo" (exp.headD 'X')
            else vb.setattr "tdi" bit)) :=
      ite_pred (shiftInv bit) _ _ _
        (shiftInv_setattr _ bit "tms" _ hinv2 hinv2.1.2.2.1 (by decide)) hinv2
    show List.map tdiChar
        (VectorBuilder.vector _ 1 _ :: (jtag_shiftGo _ rest exp.tail useTdo hasExp
            noexit "").2)
      = some bit :: rest.map some
    rw [List.map_cons]
    exact congrArg₂ _ hinv3.2 (ih exp.tail useTdo hasExp noexit "" _ hinv3.1)

theorem jtag_shiftGo_length : ∀ (bits : List Char) (exp : List Char)
    (useTdo hasExp noexit : Bool) (comment : String) (vb : VectorBuilder),
    ((jtag_shiftGo vb bits exp useTdo hasExp noexit comment).2).length = bits.length := by
  intro bits
  induction bits with
  | nil => intro _ _ _ _ _ _; simp [jtag_shiftGo]
  | cons bit rest ih =>
    intro exp useTdo hasExp noexit comment vb
    show (VectorBuilder.vector _ 1 _ :: (jtag_shiftGo _ rest exp.tail useTdo hasExp
        noexit "").2).length = rest.length + 1
    rw [List.length_cons]
    exact congrArg Nat.succ (ih exp.tail useTdo hasExp noexit "" _)

/-- The TDI characters of the `len(chain)` shift vectors of `jtag_shift` are
exactly the characters of the shifted chain string. -/
theorem jtag_shift_tdi (vb : VectorBuilder) (chain : String)
    (expected_chain : Option String) (comment : Option String) (noexit : Bool)
    (h : jtagPins vb) :
    (((jtag_shift vb chain expected_chain comment noexit).2).take chain.length).map
        tdiChar = chain.data.map some := by
  have hdef : jtagPins (set_jtag_default_values vb) := jtagPins_defaults vb h
  have h1 : jtagPins ((set_jtag_default_values vb).setattr "tck" '1') :=
    jtagPins_setattr _ "tck" '1' hdef hdef.1
  have h2 : jtagPins (((set_jtag_default_values vb).setattr "tck" '1').setattr "tms" '0') :=
    jtagPins_setattr _ "tms" '0' h1 h1.2.2.1
  have hlen := jtag_shiftGo_length chain.data
      (expected_chain.getD "").data
      (strTruthy expected_chain && !allX (expected_chain.getD ""))
      (strTruthy expected_chain) noexit (comment.getD "" ++ "/Start shifting. ")
      (((set_jtag_default_values vb).setattr "tck" '1').setattr "tms" '0')
  have hmap := jtag_shiftGo_tdi chain.data
      (expected_chain.getD "").data
      (strTruthy expected_chain && !allX (expected_chain.getD ""))
      (strTruthy expected_chain) noexit (comment.getD "" ++ "/Start shifting. ")
      (((set_jtag_default_values vb).setattr "tck" '1').setattr "tms" '0') h2
  dsimp only [jtag_shift]
  show List.map tdiChar (List.take chain.data.length _) = _
  rw [List.take_left' hlen]
  exact hmap

/-- Concatenation form of the chain composition loops. -/
def strJoin (l : List String) : String := l.foldr (fun a b => a ++ b) ""

theorem strJoin_cons (a : String) (l : List String) :
    strJoin (a :: l) = a ++ strJoin l := rfl

theorem str_append_empty (a : String) : a ++ "" = a := by
  apply String.ext; simp [String.data_append]

theorem str_empty_append (a : String) : "" ++ a = a := by
  apply String.ext; simp [String.data_append]

theorem strJoin_append (a b : List String) :
    strJoin (a ++ b) = strJoin a ++ strJoin b := by
  induction a with
  | nil =>
    show strJoin b = "" ++ strJoin b
    rw [str_empty_append]
  | cons x xs ih =>
    rw [List.cons_append, strJoin_cons, strJoin_cons, ih, String.append_assoc]

theorem foldl_chainIR_aux (tap : JTAGTap) (ir_value : String) :
    ∀ (l : List JTAGTap) (acc : String),
      l.foldl (fun acc el =>
          acc ++ (if el = tap then strRev ir_value else strRev el.reg_bypass.IR_value)) acc
        = acc ++ strJoin (l.map (fun el =>
            if el = tap then strRev ir_value else strRev el.reg_bypass.IR_value)) := by
  intro l
  induction l with
  | nil => intro acc; rw [List.foldl_nil, List.map_nil]; exact (str_append_empty acc).symm
  | cons t rest ih =>
    intro acc
    rw [List.foldl_cons, List.map_cons, strJoin_cons, ih, String.append_assoc]

/-- `chainIR` is the concatenation of the per-TAP contributions in chain
order. -/
theorem chainIR_eq_strJoin (d : JTAGDriver) (tap : JTAGTap) (ir_value : String) :
    chainIR d tap ir_value
      = strJoin (d.chain.map (fun el =>
          if el = tap then strRev ir_value else strRev el.reg_bypass.IR_value)) := by
  unfold chainIR
  rw [foldl_chainIR_aux tap ir_value d.chain "", str_empty_append]

theorem jtagPins_goto_shift_ir (vb : VectorBuilder) (c : Option String)
    (h : jtagPins vb) : jtagPins (jtag_goto_shift_ir vb c).1 := by
  have hdef := jtagPins_defaults vb h
  have g1 := jtagPins_setattr _ "tms" '1' hdef hdef.2.2.1
  have g2 := jtagPins_setattr _ "tck" '0' g1 g1.1
  have g3 := jtagPins_setattr _ "tck" '1' g2 g2.1
  exact jtagPins_setattr _ "tms" '0' g3 g3.2.2.1

theorem goto_shift_ir_length (vb : VectorBuilder) (c : Option String) :
    (jtag_goto_shift_ir vb c).2.length = 4 := rfl

/-- `JTAGDriver.add_tap` called along a list builds the reversed chain. -/
theorem foldl_add_tap (taps : List JTAGTap) :
    ∀ (c : List JTAGTap),
      (taps.foldl JTAGDriver.add_tap { chain := c }).chain = taps.reverse ++ c := by
  induction taps with
  | nil => intro c; simp
  | cons t rest ih =>
    intro c
    simp only [List.foldl_cons, List.reverse_cons]
    rw [show JTAGDriver.add_tap { chain := c } t = { chain := t :: c } from rfl, ih]
    simp

/-- **C6.** For a chain `pre ++ [tap] ++ post` registered in TDI order
(`pre` are the TAPs between TDI and the target, `post` those after it), the
shift-IR TDI bit stream emitted by `jtag_set_ir` — the TDI characters of the
shift vectors, which follow the 4 goto-shift-IR vectors — equals
`reverse(Tn.bypass.IR) ++ … ++ reverse(Tk+1.bypass.IR) ++ reverse(ir_value)
++ reverse(Tk-1.bypass.IR) ++ … ++ reverse(T0.bypass.IR)`, and every
bypassed TAP's BYPASS IR is the all-ones string of its IR width. -/
theorem C6_jtag_set_ir_stream (pre post : List JTAGTap) (tap : JTAGTap)
    (hpre : tap ∉ pre) (hpost : tap ∉ post) (vb : VectorBuilder)
    (hpins : jtagPins vb) (ir_value : String) (comment : Option String) :
    ((((jtag_set_ir ((pre ++ [tap] ++ post).foldl JTAGDriver.add_tap { chain := [] })
            vb tap ir_value comment).2.drop 4).take
          (chainIR ((pre ++ [tap] ++ post).foldl JTAGDriver.add_tap { chain := [] })
            tap ir_value).length).map tdiChar
        = (chainIR ((pre ++ [tap] ++ post).foldl JTAGDriver.add_tap { chain := [] })
            tap ir_value).data.map some)
    ∧ chainIR ((pre ++ [tap] ++ post).foldl JTAGDriver.add_tap { chain := [] })
          tap ir_value
        = strJoin (post.reverse.map (fun t => strRev t.reg_bypass.IR_value))
            ++ (strRev ir_value
              ++ strJoin (pre.reverse.map (fun t => strRev t.reg_bypass.IR_value)))
    ∧ ∀ t ∈ pre ++ [tap] ++ post, t.reg_bypass.IR_value = strRepl t.IR_size '1' := by
  set d := (pre ++ [tap] ++ post).foldl JTAGDriver.add_tap
      ({ chain := [] } : JTAGDriver) with hd
  have hchain : d.chain = post.reverse ++ tap :: pre.reverse := by
    rw [hd, foldl_add_tap]
    simp [List.reverse_append]
  refine ⟨?_, ?_, fun t _ => rfl⟩
  · -- TDI projection: the 4 goto vectors are dropped, then the shift vectors
    dsimp only [jtag_set_ir]
    rw [List.drop_left' (goto_shift_ir_length vb _)]
    exact jtag_shift_tdi _ _ none _ false (jtagPins_goto_shift_ir vb _ hpins)
  · rw [chainIR_eq_strJoin, hchain]
    have hpost' : ∀ t ∈ post.reverse,
        (if t = tap then strRev ir_value else strRev t.reg_bypass.IR_value)
          = strRev t.reg_bypass.IR_value := by
      intro t ht
      rw [if_neg]
      intro hteq
      exact hpost (hteq ▸ (List.mem_reverse.mp ht))
    have hpre' : ∀ t ∈ pre.reverse,
        (if t = tap then strRev ir_value else strRev t.reg_bypass.IR_value)
          = strRev t.reg_bypass.IR_value := by
      intro t ht
      rw [if_neg]
      intro hteq
      exact hpre (hteq ▸ (List.mem_reverse.mp ht))
    rw [List.map_append, List.map_cons, strJoin_append, if_pos rfl]
    rw [List.map_congr_left hpost', List.map_congr_left hpre']
    apply String.ext
    simp [strJoin, String.data_append]

/-! ## RISC-V debug TAP data model (`JTAGTaps/RISCVDebugTap.py`) -/

/-- `DMIOp` (2-bit DMI opcode as a binary string). -/
inductive DMIOp where
  | NOP
  | READ
  | WRITE
  deriving DecidableEq, Repr

/-- The `value` of a `DMIOp` member. -/
def DMIOp.value : DMIOp → String
  | .NOP => "00"
  | .READ => "01"
  | .WRITE => "10"

/-- Python `str()` of a `DMIOp` member (used in comment formatting). -/
def DMIOp.pyStr : DMIOp → String
  | .NOP => "DMIOp.NOP"
  | .READ => "DMIOp.READ"
  | .WRITE => "DMIOp.WRITE"

/-- `DMIResult` (2-bit DMI status as a binary string). -/
inductive DMIResult where
  | OP_SUCCESS
  | OP_FAILED
  | OP_PENDING
  deriving DecidableEq, Repr

def DMIResult.value : DMIResult → String
  | .OP_SUCCESS => "00"
  | .OP_FAILED => "10"
  | .OP_PENDING => "11"

def DMIResult.pyStr : DMIResult → String
  | .OP_SUCCESS => "DMIResult.OP_SUCCESS"
  | .OP_FAILED => "DMIResult.OP_FAILED"
  | .OP_PENDING => "DMIResult.OP_PENDING"

/-- `DMRegAddress`: the debug-module register addresses, each a 7-bit binary
string (`f"{addr:0>7b}"` in the source). -/
inductive DMRegAddress where
  | NO_REG
  | DATAO
  | DATA11
  | DMCONTROL
  | DMSTATUS
  | HARTINFO
  | HALTSUM1
  | HAWINDOWSEL
  | HAWINDOW
  | ABSTRACTCS
  | COMMAND
  | ABSTRACTAUTO
  | CONFSTRPTR0
  | CONFSTRPTR1
  | CONFSTRPTR2
  | CONFSTRPTR3
  | NEXTDM
  | PROGBUF0
  | PROGBUF15
  | AUTHDATA
  | HALTSUM2
  | HALTSUM3
  | SBADDRESS3
  | SBCS
  | SBADDRESS0
  | SBADDRESS1
  | SBADDRESS2
  | SBDATA0
  | SBDATA1
  | SBDATA2
  | SBDATA3
  | HALTSUM0
  deriving DecidableEq, Repr

/-- The 7-bit address string of a `DMRegAddress` member. -/
def DMRegAddress.value : DMRegAddress → String
  | .NO_REG => "0000000"
  | .DATAO => "0000100"
  | .DATA11 => "0001111"
  | .DMCONTROL => "0010000"
  | .DMSTATUS => "0010001"
  | .HARTINFO => "0010010"
  | .HALTSUM1 => "0010011"
  | .HAWINDOWSEL => "0010100"
  | .HAWINDOW => "0010101"
  | .ABSTRACTCS => "0010110"
  | .COMMAND => "0010111"
  | .ABSTRACTAUTO => "0011000"
  | .CONFSTRPTR0 => "0011001"
  | .CONFSTRPTR1 => "0011010"
  | .CONFSTRPTR2 => "0011011"
  | .CONFSTRPTR3 => "0011100"
  | .NEXTDM => "0011101"
  | .PROGBUF0 => "0100000"
  | .PROGBUF15 => "0101111"
  | .AUTHDATA => "0110000"
  | .HALTSUM2 => "0110100"
  | .HALTSUM3 => "0110101"
  | .SBADDRESS3 => "0110111"
  | .SBCS => "0111000"
  | .SBADDRESS0 => "0111001"
  | .SBADDRESS1 => "0111010"
  | .SBADDRESS2 => "0111011"
  | .SBDATA0 => "0111100"
  | .SBDATA1 => "0111101"
  | .SBDATA2 => "0111110"
  | .SBDATA3 => "0111111"
  | .HALTSUM0 => "1000000"

/-- The `.name` attribute of a `DMRegAddress` member. -/
def DMRegAddress.pyName : DMRegAddress → String
  | .NO_REG => "NO_REG"
  | .DATAO => "DATAO"
  | .DATA11 => "DATA11"
  | .DMCONTROL => "DMCONTROL"
  | .DMSTATUS => "DMSTATUS"
  | .HARTINFO => "HARTINFO"
  | .HALTSUM1 => "HALTSUM1"
  | .HAWINDOWSEL => "HAWINDOWSEL"
  | .HAWINDOW => "HAWINDOW"
  | .ABSTRACTCS => "ABSTRACTCS"
  | .COMMAND => "COMMAND"
  | .ABSTRACTAUTO => "ABSTRACTAUTO"
  | .CONFSTRPTR0 => "CONFSTRPTR0"
  | .CONFSTRPTR1 => "CONFSTRPTR1"
  | .CONFSTRPTR2 => "CONFSTRPTR2"
  | .CONFSTRPTR3 => "CONFSTRPTR3"
  | .NEXTDM => "NEXTDM"
  | .PROGBUF0 => "PROGBUF0"
  | .PROGBUF15 => "PROGBUF15"
  | .AUTHDATA => "AUTHDATA"
  | .HALTSUM2 => "HALTSUM2"
  | .HALTSUM3 => "HALTSUM3"
  | .SBADDRESS3 => "SBADDRESS3"
  | .SBCS => "SBCS"
  | .SBADDRESS0 => "SBADDRESS0"
  | .SBADDRESS1 => "SBADDRESS1"
  | .SBADDRESS2 => "SBADDRESS2"
  | .SBDATA0 => "SBDATA0"
  | .SBDATA1 => "SBDATA1"
  | .SBDATA2 => "SBDATA2"
  | .SBDATA3 => "SBDATA3"
  | .HALTSUM0 => "HALTSUM0"

/-- Python `str()` of a `DMRegAddress` member. -/
def DMRegAddress.pyStr (a : DMRegAddress) : String :=
  "DMRegAddress." ++ a.pyName

/-- `RISCVReg`: RISC-V CSR identifiers, each carrying its hex string value
exactly as written in the source. -/
inductive RISCVReg where
  | CSR_FFLAGS
  | CSR_FRM
  | CSR_FCSR
  | CSR_FTRAN
  | CSR_SSTATUS
  | CSR_SIE
  | CSR_STVEC
  | CSR_SCOUNTEREN
  | CSR_SSCRATCH
  | CSR_SEPC
  | CSR_SCAUSE
  | CSR_STVAL
  | CSR_SIP
  | CSR_SATP
  | CSR_MSTATUS
  | CSR_MISA
  | CSR_MEDELEG
  | CSR_MIDELEG
  | CSR_MIE
  | CSR_MTVEC
  | CSR_MCOUNTEREN
  | CSR_MSCRATCH
  | CSR_MEPC
  | CSR_MCAUSE
  | CSR_MTVAL
  | CSR_MIP
  | CSR_PMPCFG0
  | CSR_PMPADDR0
  | CSR_MVENDORID
  | CSR_MARCHID
  | CSR_MIMPID
  | CSR_MHARTID
  | CSR_MCYCLE
  | CSR_MINSTRET
  | CSR_DCACHE
  | CSR_ICACHE
  | CSR_TSELECT
  | CSR_TDATA1
  | CSR_TDATA2
  | CSR_TDATA3
  | CSR_TINFO
  | CSR_DCSR
  | CSR_DPC
  | CSR_DSCRATCH0
  | CSR_DSCRATCH1
  | CSR_CYCLE
  | CSR_TIME
  | CSR_INSTRET
  | CSR_L1_ICACHE_MISS
  | CSR_L1_DCACHE_MISS
  | CSR_ITLB_MISS
  | CSR_DTLB_MISS
  | CSR_LOAD
  | CSR_STORE
  | CSR_EXCEPTION
  | CSR_EXCEPTION_RET
  | CSR_BRANCH_JUMP
  | CSR_CALL
  | CSR_RET
  | CSR_MIS_PREDICT
  | CSR_SB_FULL
  | CSR_IF_EMPTY
  deriving DecidableEq, Repr

def RISCVReg.value : RISCVReg → String
  | .CSR_FFLAGS => "0x001"
  | .CSR_FRM => "0x002"
  | .CSR_FCSR => "0x003"
  | .CSR_FTRAN => "0x800"
  | .CSR_SSTATUS => "0x100"
  | .CSR_SIE => "0x104"
  | .CSR_STVEC => "0x105"
  | .CSR_SCOUNTEREN => "0x106"
  | .CSR_SSCRATCH => "0x140"
  | .CSR_SEPC => "0x141"
  | .CSR_SCAUSE => "0x142"
  | .CSR_STVAL => "0x143"
  | .CSR_SIP => "0x144"
  | .CSR_SATP => "0x180"
  | .CSR_MSTATUS => "0x300"
  | .CSR_MISA => "0x301"
  | .CSR_MEDELEG => "0x302"
  | .CSR_MIDELEG => "0x303"
  | .CSR_MIE => "0x304"
  | .CSR_MTVEC => "0x305"
  | .CSR_MCOUNTEREN => "0x306"
  | .CSR_MSCRATCH => "0x340"
  | .CSR_MEPC => "0x341"
  | .CSR_MCAUSE => "0x342"
  | .CSR_MTVAL => "0x343"
  | .CSR_MIP => "0x344"
  | .CSR_PMPCFG0 => "0x3A0"
  | .CSR_PMPADDR0 => "0x3B0"
  | .CSR_MVENDORID => "0xF11"
  | .CSR_MARCHID => "0xF12"
  | .CSR_MIMPID => "0xF13"
  | .CSR_MHARTID => "0xF14"
  | .CSR_MCYCLE => "0xB00"
  | .CSR_MINSTRET => "0xB02"
  | .CSR_DCACHE => "0x701"
  | .CSR_ICACHE => "0x700"
  | .CSR_TSELECT => "0x7A0"
  | .CSR_TDATA1 => "0x7A1"
  | .CSR_TDATA2 => "0x7A2"
  | .CSR_TDATA3 => "0x7A3"
  | .CSR_TINFO => "0x7A4"
  | .CSR_DCSR => "0x7b0"
  | .CSR_DPC => "0x7b1"
  | .CSR_DSCRATCH0 => "0x7b2"
  | .CSR_DSCRATCH1 => "0x7b3"
  | .CSR_CYCLE => "0xC00"
  | .CSR_TIME => "0xC01"
  | .CSR_INSTRET => "0xC02"
  | .CSR_L1_ICACHE_MISS => "0xC03"
  | .CSR_L1_DCACHE_MISS => "0xC04"
  | .CSR_ITLB_MISS => "0xC05"
  | .CSR_DTLB_MISS => "0xC06"
  | .CSR_LOAD => "0xC07"
  | .CSR_STORE => "0xC08"
  | .CSR_EXCEPTION => "0xC09"
  | .CSR_EXCEPTION_RET => "0xC0A"
  | .CSR_BRANCH_JUMP => "0xC0B"
  | .CSR_CALL => "0xC0C"
  | .CSR_RET => "0xC0D"
  | .CSR_MIS_PREDICT => "0xC0E"
  | .CSR_SB_FULL => "0xC0F"
  | .CSR_IF_EMPTY => "0xC10"

/-- The constructor name, for Python `str()` rendering. -/
def RISCVReg.pyName : RISCVReg → String
  | .CSR_FFLAGS => "CSR_FFLAGS"
  | .CSR_FRM => "CSR_FRM"
  | .CSR_FCSR => "CSR_FCSR"
  | .CSR_FTRAN => "CSR_FTRAN"
  | .CSR_SSTATUS => "CSR_SSTATUS"
  | .CSR_SIE => "CSR_SIE"
  | .CSR_STVEC => "CSR_STVEC"
  | .CSR_SCOUNTEREN => "CSR_SCOUNTEREN"
  | .CSR_SSCRATCH => "CSR_SSCRATCH"
  | .CSR_SEPC => "CSR_SEPC"
  | .CSR_SCAUSE => "CSR_SCAUSE"
  | .CSR_STVAL => "CSR_STVAL"
  | .CSR_SIP => "CSR_SIP"
  | .CSR_SATP => "CSR_SATP"
  | .CSR_MSTATUS => "CSR_MSTATUS"
  | .CSR_MISA => "CSR_MISA"
  | .CSR_MEDELEG => "CSR_MEDELEG"
  | .CSR_MIDELEG => "CSR_MIDELEG"
  | .CSR_MIE => "CSR_MIE"
  | .CSR_MTVEC => "CSR_MTVEC"
  | .CSR_MCOUNTEREN => "CSR_MCOUNTEREN"
  | .CSR_MSCRATCH => "CSR_MSCRATCH"
  | .CSR_MEPC => "CSR_MEPC"
  | .CSR_MCAUSE => "CSR_MCAUSE"
  | .CSR_MTVAL => "CSR_MTVAL"
  | .CSR_MIP => "CSR_MIP"
  | .CSR_PMPCFG0 => "CSR_PMPCFG0"
  | .CSR_PMPADDR0 => "CSR_PMPADDR0"
  | .CSR_MVENDORID => "CSR_MVENDORID"
  | .CSR_MARCHID => "CSR_MARCHID"
  | .CSR_MIMPID => "CSR_MIMPID"
  | .CSR_MHARTID => "CSR_MHARTID"
  | .CSR_MCYCLE => "CSR_MCYCLE"
  | .CSR_MINSTRET => "CSR_MINSTRET"
  | .CSR_DCACHE => "CSR_DCACHE"
  | .CSR_ICACHE => "CSR_ICACHE"
  | .CSR_TSELECT => "CSR_TSELECT"
  | .CSR_TDATA1 => "CSR_TDATA1"
  | .CSR_TDATA2 => "CSR_TDATA2"
  | .CSR_TDATA3 => "CSR_TDATA3"
  | .CSR_TINFO => "CSR_TINFO"
  | .CSR_DCSR => "CSR_DCSR"
  | .CSR_DPC => "CSR_DPC"
  | .CSR_DSCRATCH0 => "CSR_DSCRATCH0"
  | .CSR_DSCRATCH1 => "CSR_DSCRATCH1"
  | .CSR_CYCLE => "CSR_CYCLE"
  | .CSR_TIME => "CSR_TIME"
  | .CSR_INSTRET => "CSR_INSTRET"
  | .CSR_L1_ICACHE_MISS => "CSR_L1_ICACHE_MISS"
  | .CSR_L1_DCACHE_MISS => "CSR_L1_DCACHE_MISS"
  | .CSR_ITLB_MISS => "CSR_ITLB_MISS"
  | .CSR_DTLB_MISS => "CSR_DTLB_MISS"
  | .CSR_LOAD => "CSR_LOAD"
  | .CSR_STORE => "CSR_STORE"
  | .CSR_EXCEPTION => "CSR_EXCEPTION"
  | .CSR_EXCEPTION_RET => "CSR_EXCEPTION_RET"
  | .CSR_BRANCH_JUMP => "CSR_BRANCH_JUMP"
  | .CSR_CALL => "CSR_CALL"
  | .CSR_RET => "CSR_RET"
  | .CSR_MIS_PREDICT => "CSR_MIS_PREDICT"
  | .CSR_SB_FULL => "CSR_SB_FULL"
  | .CSR_IF_EMPTY => "CSR_IF_EMPTY"

/-- Python `str()` of a `RISCVReg` member. -/
def RISCVReg.pyStr (r : RISCVReg) : String :=
  "RISCVReg." ++ r.pyName

/-- Value of one hexadecimal digit character. -/
def hexDigitVal (c : Char) : Nat :=
  if '0' ≤ c ∧ c ≤ '9' then c.toNat - 48
  else if 'a' ≤ c ∧ c ≤ 'f' then c.toNat - 87
  else if 'A' ≤ c ∧ c ≤ 'F' then c.toNat - 55
  else 0

/-- Numeric value of a `"0x..."` hex literal string. -/
def hexStrVal (s : String) : Nat :=
  (s.data.drop 2).foldl (fun a c => 16 * a + hexDigitVal c) 0

/-- `RISCVReg.to_bits`: `bitstring.pack("hex:12, 0x0", value)` in `lsb0`
mode puts the 12-bit CSR id at bits 0..11 and the zero literal at bits
12..15, so the 16-bit word is just the CSR id. -/
def RISCVReg.to_bits (r : RISCVReg) : Nat := hexStrVal r.value

/-- `DMAbstractCmdType`. -/
inductive DMAbstractCmdType where
  | ACCESS_REG
  | QUICK_ACCESS
  | ACCESS_MEM
  deriving DecidableEq, Repr

/-- `DMAbstractCmdType.to_bits`: `BitArray(uint=value, length=8)`. -/
def DMAbstractCmdType.to_bits : DMAbstractCmdType → Nat
  | .ACCESS_REG => 0
  | .QUICK_ACCESS => 1
  | .ACCESS_MEM => 2

/-- `DMAbstractCmd`.  The constructor validation
(`if aarsize not in [2, 3, 4]: raise ValueError`) is modelled by the
`Valid` predicate below; every construction in this development uses
`aarsize = 2`. -/
structure DMAbstractCmd where
  cmd_type : DMAbstractCmdType
  reg : RISCVReg
  write : Bool
  transfer : Bool
  postexec : Bool
  aarpostinc : Bool
  aarsize : Nat
  deriving DecidableEq, Repr

/-- The `ValueError` guard of `DMAbstractCmd.__init__`. -/
def DMAbstractCmd.Valid (c : DMAbstractCmd) : Prop :=
  c.aarsize = 2 ∨ c.aarsize = 3 ∨ c.aarsize = 4

/-- `DMAbstractCmd.to_bits`:
`pack("bits, bool, bool, bool, bool, uint:3, 0b0, bits", reg, write,
transfer, postexec, aarpostinc, aarsize, cmd_type)` in `lsb0` mode packs
the first field at the least significant end: regno at bits 0..15, `write`
at 16, `transfer` at 17, `postexec` at 18, `aarpostinc` at 19, `aarsize` at
20..22, a zero bit at 23 and `cmd_type` at 24..31. -/
def DMAbstractCmd.to_bits (c : DMAbstractCmd) : Nat :=
  c.reg.to_bits + (Bool.toNat c.write) * 2 ^ 16 + (Bool.toNat c.transfer) * 2 ^ 17
    + (Bool.toNat c.postexec) * 2 ^ 18 + (Bool.toNat c.aarpostinc) * 2 ^ 19
    + c.aarsize * 2 ^ 20 + c.cmd_type.to_bits * 2 ^ 24

/-! ## RISC-V debug TAP operations -/

/-- The `SoC DTMCSR` register added by `RISCVDebugTap.__init__`. -/
def reg_soc_dtmcsr : JTAGRegister :=
  { name := "SoC DTMCSR", IR_value := "10000", DR_size := 32, default_value := none }

/-- The `SoC DMIACCESS` register added by `RISCVDebugTap.__init__`. -/
def reg_soc_dmiaccess : JTAGRegister :=
  { name := "SoC DMIACCESS", IR_value := "10001", DR_size := 41, default_value := none }

/-- The `SoC IDCODE` register (default value is the expected IDCODE's
32-bit binary rendering, `BitArray(idcode).bin`). -/
def reg_soc_idcode (idcode : String) : JTAGRegister :=
  { name := "SoC IDCODE", IR_value := "00001", DR_size := 32,
    default_value := some (natToBin 32 (hexStrVal idcode)) }

/-- `RISCVDebugTap.__init__(driver, idcode)`: a 5-bit-IR TAP with BYPASS,
IDCODE, DTMCSR and DMIACCESS registers. -/
def RISCVDebugTapMk (idcode : String) : JTAGTap :=
  { name := "RISC-V debug module", IR_size := 5,
    registers := [{ name := "BYPASS", IR_value := strRepl 5 '1', DR_size := 1,
                    default_value := none },
                  reg_soc_idcode idcode, reg_soc_dtmcsr, reg_soc_dmiaccess] }

/-- `RISCVDebugTap.set_dmi(dm_op, dmi_addr, new_dm_data, expected_dm_status,
expected_dm_data, comment)`: one DMIACCESS DR shift whose 41-bit value is
`addr ++ data ++ op` (MSB-to-LSB) and whose expected value is 8 don't-cares,
the expected data (or 32 don't-cares) and the expected status (or 2
don't-cares). -/
def set_dmi (d : JTAGDriver) (tap : JTAGTap) (vb : VectorBuilder) (dm_op : DMIOp)
    (dmi_addr : DMRegAddress) (new_dm_data : String)
    (expected_dm_status : Option DMIResult) (expected_dm_data : Option String)
    (comment : Option String) : VectorBuilder × List Vector :=
  let comment := comment.getD "" ++ "/Start DMI access with OP " ++ dm_op.pyStr
      ++ " to register " ++ dmi_addr.pyName ++ "."
  let comment := comment ++
      (if expected_dm_status.isSome && strTruthy expected_dm_data then
        " Expecting status " ++ (expected_dm_status.map DMIResult.pyStr).getD ""
          ++ " and data 0b" ++ expected_dm_data.getD ""
      else "")
  let dr_value := dmi_addr.value ++ new_dm_data ++ dm_op.value
  let expected_dr_value := strRepl 8 'X'
      ++ (if strTruthy expected_dm_data then expected_dm_data.getD ""
          else strRepl 32 'X')
      ++ (match expected_dm_status with
          | some s => s.value
          | none => "XX")
  jtag_set_dr d vb tap dr_value (some expected_dr_value) (some comment) false

/-- `RISCVDebugTap.set_dmactive(dmactive)`.  The data argument embeds
Python's `31 * "0" + "1" if dmactive else "0"`, whose conditional governs
the whole concatenation: a 32-bit string for `True`, the single character
`"0"` for `False`. -/
def set_dmactive (d : JTAGDriver) (tap : JTAGTap) (vb : VectorBuilder)
    (dmactive : Bool) : VectorBuilder × List Vector :=
  set_dmi d tap vb DMIOp.WRITE DMRegAddress.DMCONTROL
    (if dmactive then strRepl 31 '0' ++ "1" else "0") none none
    (some "Set DMACTIVE flag")

/-- `RISCVDebugTap.init_dmi()`. -/
def init_dmi (d : JTAGDriver) (tap : JTAGTap) (vb : VectorBuilder) :
    VectorBuilder × List Vector :=
  jtag_set_ir d vb tap reg_soc_dmiaccess.IR_value
    (some "Init DMIACCESS (set corresponding IR)")

/-- `RISCVDebugTap.dmi_reset()`: write DTMCS with bit 16 set
(`BitArray(32)` with `dr_value[16] = 1` renders MSB-first as fifteen zeros,
a one, and sixteen zeros), then re-select the DMIACCESS IR. -/
def dmi_reset (d : JTAGDriver) (tap : JTAGTap) (vb : VectorBuilder) :
    VectorBuilder × List Vector :=
  let w := write_reg d vb tap reg_soc_dtmcsr
      (strRepl 15 '0' ++ "1" ++ strRepl 16 '0') (some "Reset DMI")
  let i := init_dmi d tap w.1
  (i.1, w.2 ++ i.2)

/-- `RISCVDebugTap.read_debug_reg(dmi_addr, expected_data, retries,
comment)`: issue the DMI read, then a matched loop polling DMIACCESS with a
NOP (condition padded to a multiple of 8 with a JTAG idle vector; idle body
a DMI reset, likewise padded), then 8 idle vectors. -/
def read_debug_reg (d : JTAGDriver) (tap : JTAGTap) (vb : VectorBuilder)
    (dmi_addr : DMRegAddress) (expected_data : String) (retries : Nat)
    (comment : Option String) : VectorBuilder × List Vector :=
  let comment := comment.getD "" ++ "/Verify debug reg " ++ dmi_addr.pyStr
      ++ " to be 0b" ++ expected_data ++ ". Max retries = " ++ Nat.repr retries
  let a := set_dmi d tap vb DMIOp.READ dmi_addr (strRepl 32 '0') none none
      (some comment)
  let c1 := set_dmi d tap a.1 DMIOp.NOP DMRegAddress.NO_REG (strRepl 32 '0')
      (some DMIResult.OP_SUCCESS) (some expected_data) none
  let p1 := jtag_idle_vector c1.1 1 none
  let condition_vectors := pad_vectors c1.2 p1.2
  let r1 := dmi_reset d tap p1.1
  let p2 := jtag_idle_vector r1.1 1 none
  let idle_vectors := pad_vectors r1.2 p2.2
  let i8 := jtag_idle_vectors p2.1 8
  (i8.1, a.2 ++ [VectorBuilder.matched_loop condition_vectors idle_vectors retries]
    ++ i8.2)

/-- The expected ABSTRACTCS value of `RISCVDebugTap.wait_command`: a 32-bit
`BitArray` with bit 12 (busy) masked to 0 and bits 8..10 (cmderr) masked to
0, rendered LSB-first with `'X'` for unmasked bits and then reversed to
MSB-first order. -/
def waitCommandExpected : String :=
  strRev (String.mk ((List.range 32).map (fun i =>
    if i = 12 ∨ (8 ≤ i ∧ i < 11) then '0' else 'X')))

/-- `RISCVDebugTap.wait_command(retries, comment)`. -/
def wait_command (d : JTAGDriver) (tap : JTAGTap) (vb : VectorBuilder)
    (retries : Nat) (comment : Option String) : VectorBuilder × List Vector :=
  read_debug_reg d tap vb DMRegAddress.ABSTRACTCS waitCommandExpected retries
    (some (comment.getD "" ++ "/Wait for abstract command completion"))

/-- `RISCVDebugTap.write_debug_reg(dmi_addr, data, verify_completion,
retries, comment)`: the DMI write, five clocked idle cycles, and — when
`verify_completion` — a matched loop polling the DMI status plus 8 trailing
idle vectors. -/
def write_debug_reg (d : JTAGDriver) (tap : JTAGTap) (vb : VectorBuilder)
    (dmi_addr : DMRegAddress) (data : String) (verify_completion : Bool)
    (retries : Nat) (comment : Option String) : VectorBuilder × List Vector :=
  let comment := comment.getD "" ++ "/Write " ++ pp_binstr data ++ " to debug reg "
      ++ dmi_addr.pyStr ++ "."
      ++ (if verify_completion then "Max retries = " ++ Nat.repr retries else "")
  let a := set_dmi d tap vb DMIOp.WRITE dmi_addr data none none (some comment)
  let vb1 := (set_jtag_default_values a.1).setattr "tck" '1'
  let v5 := vb1.vector 5
      (some "Clock tck for a few cycles to let dmi complete operation")
  if verify_completion then
    let c1 := set_dmi d tap vb1 DMIOp.NOP DMRegAddress.NO_REG (strRepl 32 '0')
        (some DMIResult.OP_SUCCESS) none none
    let p1 := jtag_idle_vector c1.1 1 none
    let condition_vectors := pad_vectors c1.2 p1.2
    let r1 := dmi_reset d tap p1.1
    let p2 := jtag_idle_vector r1.1 1 none
    let idle_vectors := pad_vectors r1.2 p2.2
    let i8 := jtag_idle_vectors p2.1 8
    (i8.1, a.2 ++ [v5]
      ++ [VectorBuilder.matched_loop condition_vectors idle_vectors retries]
      ++ i8.2)
  else
    (vb1, a.2 ++ [v5])

/-- `RISCVDebugTap.set_command_no_loop(cmd, comment, wait_cycles)`. -/
def set_command_no_loop (d : JTAGDriver) (tap : JTAGTap) (vb : VectorBuilder)
    (cmd : DMAbstractCmd) (comment : Option String) (wait_cycles : Nat) :
    VectorBuilder × List Vector :=
  let comment := comment.getD "" ++ "/Issue abstract command register"
  let w := write_debug_reg d tap vb DMRegAddress.COMMAND (natToBin 32 cmd.to_bits)
      false 1 (some comment)
  let iv := jtag_idle_vector w.1 wait_cycles (some "Waiting for command completion")
  (iv.1, w.2 ++ [iv.2])

/-- `RISCVDebugTap.set_command(cmd, comment, retries)`. -/
def set_command (d : JTAGDriver) (tap : JTAGTap) (vb : VectorBuilder)
    (cmd : DMAbstractCmd) (comment : Option String) (retries : Nat) :
    VectorBuilder × List Vector :=
  let comment := comment.getD "" ++ "/Issue abstract command register"
  let w := write_debug_reg d tap vb DMRegAddress.COMMAND (natToBin 32 cmd.to_bits)
      false 1 (some comment)
  let wc := wait_command d tap w.1 retries none
  (wc.1, w.2 ++ wc.2)

/-- The abstract command built by `write_reg_abstract_cmd` (and its
`_no_loop` sibling).  The source hardcodes `reg=RISCVReg.CSR_DPC` in the
`DMAbstractCmd(...)` construction — the function's `reg` argument is used
only in the comment — so the command is one fixed value. -/
def write_reg_abstract_cmd_cmd : DMAbstractCmd :=
  { cmd_type := DMAbstractCmdType.ACCESS_REG, reg := RISCVReg.CSR_DPC,
    write := true, transfer := true, postexec := false, aarpostinc := false,
    aarsize := 2 }

/-- The comment prefix of `write_reg_abstract_cmd` /
`write_reg_abstract_cmd_no_loop`. -/
def write_reg_abstract_cmd_comment (reg : RISCVReg) (data : String)
    (comment : Option String) : String :=
  comment.getD "" ++ "/Write " ++ pp_binstr data ++ " to registers " ++ reg.pyStr

/-- `RISCVDebugTap.write_reg_abstract_cmd(reg, data, retries, comment)`:
write DATA0 (with completion check), then issue the abstract command.
`data` is the 32-bit value's binary string (`data.bin` in the source). -/
def write_reg_abstract_cmd (d : JTAGDriver) (tap : JTAGTap) (vb : VectorBuilder)
    (reg : RISCVReg) (data : String) (retries : Nat) (comment : Option String) :
    VectorBuilder × List Vector :=
  let comment := write_reg_abstract_cmd_comment reg data comment
  let w := write_debug_reg d tap vb DMRegAddress.DATAO data true retries
      (some comment)
  let sc := set_command d tap w.1 write_reg_abstract_cmd_cmd none retries
  (sc.1, w.2 ++ sc.2)

/-- `RISCVDebugTap.write_reg_abstract_cmd_no_loop(reg, data, comment)`. -/
def write_reg_abstract_cmd_no_loop (d : JTAGDriver) (tap : JTAGTap)
    (vb : VectorBuilder) (reg : RISCVReg) (data : String)
    (comment : Option String) : VectorBuilder × List Vector :=
  let comment := write_reg_abstract_cmd_comment reg data comment
  let w := write_debug_reg d tap vb DMRegAddress.DATAO data false 1 (some comment)
  let sc := set_command_no_loop d tap w.1 write_reg_abstract_cmd_cmd none 10
  (sc.1, w.2 ++ sc.2)

/-- **C10.** `set_dmactive(True)` performs a DMI WRITE to DMCONTROL whose
data string is 32 characters (31 `'0'`s then `'1'`), while
`set_dmactive(False)` passes the single character `"0"`, because the Python
conditional expression `31 * "0" + "1" if dmactive else "0"` governs the
entire concatenation; the resulting 41-bit DMIACCESS DR value shrinks to 10
bits in the `False` case. -/
theorem C10_set_dmactive_data_width :
    (∀ (d : JTAGDriver) (tap : JTAGTap) (vb : VectorBuilder),
      set_dmactive d tap vb true
          = set_dmi d tap vb DMIOp.WRITE DMRegAddress.DMCONTROL
              (strRepl 31 '0' ++ "1") none none (some "Set DMACTIVE flag")
        ∧ set_dmactive d tap vb false
          = set_dmi d tap vb DMIOp.WRITE DMRegAddress.DMCONTROL "0" none none
              (some "Set DMACTIVE flag"))
    ∧ (strRepl 31 '0' ++ "1").length = 32
    ∧ (strRepl 31 '0' ++ "1").data = List.replicate 31 '0' ++ ['1']
    ∧ ("0" : String).length = 1
    ∧ (DMRegAddress.DMCONTROL.value ++ (strRepl 31 '0' ++ "1")
        ++ DMIOp.WRITE.value).length = 41
    ∧ (DMRegAddress.DMCONTROL.value ++ "0" ++ DMIOp.WRITE.value).length = 10 := by
  exact ⟨fun d tap vb => ⟨rfl, rfl⟩, by decide, by decide, by decide, by decide,
    by decide⟩

/-- **C2.** `write_reg_abstract_cmd(csr, data)` (and its `_no_loop`
sibling) does write `data` to DATA0 first and then issues one abstract
access-register command with `transfer = 1` and `write = 1` (first two
conjuncts and the bit-16/17 facts) — but the command's `regno` field does
*not* equal `csr`: the source hardcodes `reg=RISCVReg.CSR_DPC`, so `regno`
is always `0x7b1`; for the requested register `CSR_MSTATUS` (`0x300`) the
claim fails. -/
theorem C2_write_reg_abstract_cmd_regno_bug :
    (∀ (d : JTAGDriver) (tap : JTAGTap) (vb : VectorBuilder) (reg : RISCVReg)
        (data : String) (retries : Nat) (comment : Option String),
      (write_reg_abstract_cmd d tap vb reg data retries comment).2
        = (write_debug_reg d tap vb DMRegAddress.DATAO data true retries
            (some (write_reg_abstract_cmd_comment reg data comment))).2
          ++ (set_command d tap
              (write_debug_reg d tap vb DMRegAddress.DATAO data true retries
                (some (write_reg_abstract_cmd_comment reg data comment))).1
              write_reg_abstract_cmd_cmd none retries).2)
    ∧ (∀ (d : JTAGDriver) (tap : JTAGTap) (vb : VectorBuilder) (reg : RISCVReg)
        (data : String) (comment : Option String),
      (write_reg_abstract_cmd_no_loop d tap vb reg data comment).2
        = (write_debug_reg d tap vb DMRegAddress.DATAO data false 1
            (some (write_reg_abstract_cmd_comment reg data comment))).2
          ++ (set_command_no_loop d tap
              (write_debug_reg d tap vb DMRegAddress.DATAO data false 1
                (some (write_reg_abstract_cmd_comment reg data comment))).1
              write_reg_abstract_cmd_cmd none 10).2)
    ∧ write_reg_abstract_cmd_cmd.to_bits % 2 ^ 16 = 0x7b1
    ∧ write_reg_abstract_cmd_cmd.to_bits / 2 ^ 16 % 2 = 1
    ∧ write_reg_abstract_cmd_cmd.to_bits / 2 ^ 17 % 2 = 1
    ∧ RISCVReg.CSR_MSTATUS.to_bits = 0x300
    ∧ (0x7b1 : Nat) ≠ 0x300 := by
  exact ⟨fun d tap vb reg data retries comment => rfl,
    fun d tap vb reg data comment => rfl,
    by decide, by decide, by decide, by decide, by decide⟩

/-- Witness for `C6_jtag_set_ir_stream`: a two-TAP chain (the target
followed by one bypassed dummy TAP), the docstring pin set, and the 5-bit
IR value `"01010"`. -/
theorem C6_jtag_set_ir_stream_witness :
    ((((jtag_set_ir (([] ++ [mkJTAGTap "target" 5] ++ [mkJTAGTap "dummy" 3]).foldl
            JTAGDriver.add_tap { chain := [] })
            (VectorBuilder.mk0 examplePins) (mkJTAGTap "target" 5) "01010" none).2.drop
          4).take
        (chainIR (([] ++ [mkJTAGTap "target" 5] ++ [mkJTAGTap "dummy" 3]).foldl
            JTAGDriver.add_tap { chain := [] })
          (mkJTAGTap "target" 5) "01010").length).map tdiChar
      = (chainIR (([] ++ [mkJTAGTap "target" 5] ++ [mkJTAGTap "dummy" 3]).foldl
            JTAGDriver.add_tap { chain := [] })
          (mkJTAGTap "target" 5) "01010").data.map some)
    ∧ chainIR (([] ++ [mkJTAGTap "target" 5] ++ [mkJTAGTap "dummy" 3]).foldl
          JTAGDriver.add_tap { chain := [] })
        (mkJTAGTap "target" 5) "01010"
      = strJoin ([mkJTAGTap "dummy" 3].reverse.map
            (fun t => strRev t.reg_bypass.IR_value))
        ++ (strRev "01010"
          ++ strJoin (([] : List JTAGTap).reverse.map
              (fun t => strRev t.reg_bypass.IR_value)))
    ∧ ∀ t ∈ [] ++ [mkJTAGTap "target" 5] ++ [mkJTAGTap "dummy" 3],
        t.reg_bypass.IR_value = strRepl t.IR_size '1' :=
  C6_jtag_set_ir_stream [] [mkJTAGTap "dummy" 3] (mkJTAGTap "target" 5)
    (by decide) (by decide) (VectorBuilder.mk0 examplePins) (by decide)
    "01010" none

/-! ## HP93000 AVC writer (`Common/HP93000.py`, `HP93000VectorWriter`)

The writer emits one statement per line; a file is modelled as the list of
its lines (without the trailing `"\n"` each `write` call appends — the
reader iterates the file line by line). -/

/-- Python `\d` (the lines handled here are ASCII). -/
def isDigitChar (c : Char) : Bool :=
  decide ('0' ≤ c ∧ c ≤ '9')

/-- Python `\w` on ASCII text. -/
def isWordChar (c : Char) : Bool :=
  decide (('a' ≤ c ∧ c ≤ 'z') ∨ ('A' ≤ c ∧ c ≤ 'Z') ∨ ('0' ≤ c ∧ c ≤ '9') ∨ c = '_')

/-- Python `\s` on ASCII text. -/
def isSpaceChar (c : Char) : Bool :=
  decide (c = ' ' ∨ c = '\t' ∨ c = '\n' ∨ c = '\r' ∨ c = '\x0b' ∨ c = '\x0c')

/-- Decimal digit character of `n < 10`. -/
def digitChar (n : Nat) : Char := Char.ofNat (48 + n)

/-- Fuel-driven decimal rendering loop (most significant digit first). -/
def natDecGo : Nat → Nat → List Char → List Char
  | 0, _, acc => acc
  | fuel + 1, n, acc =>
    if n = 0 then acc else natDecGo fuel (n / 10) (digitChar (n % 10) :: acc)

/-- Python `str(n)` for a nonnegative integer: standard decimal digits. -/
def natDec (n : Nat) : List Char :=
  if n = 0 then ['0'] else natDecGo (n + 1) n []

/-- Python `int(s)` on a digit string, as a character-list fold. -/
def decToNat (cs : List Char) : Nat :=
  cs.foldl (fun a c => 10 * a + (c.toNat - 48)) 0

/-- Ascending insertion for Python `sorted` on strings. -/
def insertStrSorted (x : String) : List String → List String
  | [] => [x]
  | y :: ys => if strLtB y x then y :: insertStrSorted x ys else x :: y :: ys

/-- Python `sorted` on a list of strings. -/
def sortStrs (l : List String) : List String := l.foldr insertStrSorted []

/-- Ascending insertion for Python `sorted` on pin-declaration items. -/
def insertPinSorted (x : String × PinDecl) :
    List (String × PinDecl) → List (String × PinDecl)
  | [] => [x]
  | y :: ys => if strLtB y.1 x.1 then y :: insertPinSorted x ys else x :: y :: ys

/-- Python `sorted(self.pins.items())` (keys are unique, so only the key
comparison ever decides). -/
def sortPins (l : List (String × PinDecl)) : List (String × PinDecl) :=
  l.foldr insertPinSorted []

/-- Python `' '.join(l)`. -/
def joinSpace : List String → String
  | [] => ""
  | [x] => x
  | x :: y :: xs => x ++ " " ++ joinSpace (y :: xs)

/-- The pin-state column string of a normal vector:
`''.join(str(vector['vector'][pin]) for pin in sorted(self.pins.keys()))`.
A missing pin would raise `KeyError` in the source; the `getD` default is
never read under the well-formedness hypotheses of the round-trip
theorem. -/
def pinStateString (pins : List (String × PinDecl)) (m : List (String × Char)) :
    String :=
  String.mk ((sortStrs (pins.map (fun p => p.1))).map (fun k => (m.lookup k).getD '?'))

/-- One `R<repeat> <device_cycle_name> <pin_chars> [%] <comment> ;` line. -/
def normalVecLine (pins : List (String × PinDecl)) (dvc : String)
    (v : NormalVector) : String :=
  "R" ++ String.mk (natDec v.vrepeat) ++ " " ++ dvc ++ " "
    ++ pinStateString pins v.vector ++ " "
    ++ (if strTruthy v.comment then "[%] " ++ v.comment.getD "" ++ " " else "")
    ++ ";"

mutual

/-- `HP93000VectorWriter.write_vectors(vectors, compress=False)`: the lines
appended to the AVC file.  (With `compress=True` the source first runs
`compress_vectors`, whose stray key strings for matched loops make the
writer raise; the round-trip claim concerns the uncompressed path.) -/
def write_vectors (pins : List (String × PinDecl)) (dvc : String) :
    List Vector → List String
  | [] => []
  | Vector.vec v :: rest =>
    normalVecLine pins dvc v :: write_vectors pins dvc rest
  | Vector.match_loop cond idle r :: rest =>
    ("SQPG MACT " ++ String.mk (natDec r) ++ " ;")
      :: (write_vectors pins dvc cond
        ++ ("SQPG MRPT " ++ String.mk (natDec idle.length) ++ " ;")
          :: (write_vectors pins dvc idle
            ++ "SQPG PADDING ;" :: write_vectors pins dvc rest))
  | Vector.loop body r :: rest =>
    ("SQPG LBGN " ++ String.mk (natDec r) ++ " ;")
      :: (write_vectors pins dvc body
        ++ "SQPG LEND ;" :: write_vectors pins dvc rest)

end

/-- `HP93000VectorWriter._write_header()`: the optional `PORT` line and the
`FORMAT` line listing the physical pin names sorted by logical name. -/
def write_header (pins : List (String × PinDecl)) (port : Option String) :
    List String :=
  (match port with
   | some p => ["PORT " ++ p ++ " ;"]
   | none => [])
  ++ ["FORMAT " ++ joinSpace ((sortPins pins).map (fun p => p.2.name)) ++ " ;"]

/-! ## HP93000 AVC reader (`HP93000VectorReader`)

Each regular expression of the `_matchers` table is embedded as a
maximal-munch scanner over the line's characters.  `re.match` anchors at
the start of the line and ignores trailing text, which the scanners mirror
by simply not requiring the rest to be empty.  On the line shapes this
development feeds them (the writer's output under the round-trip theorem's
hypotheses) maximal munch finds exactly the match the backtracking regex
engine finds. -/

/-- Result of the matcher table, one constructor per named pattern. -/
inductive StmtMatch where
  | empty_line
  | format_stmt (ports : List String)
  | port_stmt
  | normal_vec (vrepeat : Nat) (dvc_name : String) (pin_state : List Char)
      (comment : Option String)
  | match_loop_begin (retries : Nat)
  | match_loop_idle_begin (idle_vectors : Nat)
  | match_loop_end
  | loop_begin (count : Nat)
  | loop_end
  deriving DecidableEq, Repr

/-- Consume an exact literal prefix. -/
def scanLit : List Char → List Char → Option (List Char)
  | [], cs => some cs
  | _ :: _, [] => none
  | l :: ls, c :: cs => if c = l then scanLit ls cs else none

/-- Greedy `p+`: the maximal nonempty prefix satisfying `p`. -/
def scanPlus (p : Char → Bool) (cs : List Char) : Option (List Char × List Char) :=
  match cs.takeWhile p with
  | [] => none
  | t :: ts => some (t :: ts, cs.dropWhile p)

/-- Greedy `p*`. -/
def scanStar (p : Char → Bool) (cs : List Char) : List Char × List Char :=
  (cs.takeWhile p, cs.dropWhile p)

theorem scanPlus_eq_some {p : Char → Bool} {cs w r : List Char}
    (h : scanPlus p cs = some (w, r)) :
    w = cs.takeWhile p ∧ r = cs.dropWhile p ∧ w ≠ [] := by
  unfold scanPlus at h
  cases hh : cs.takeWhile p with
  | nil => rw [hh] at h; exact Option.noConfusion h
  | cons a as => rw [hh] at h; cases h; exact ⟨rfl, rfl, by simp⟩

theorem scanPlus_rest_lt {p : Char → Bool} {cs w r : List Char}
    (h : scanPlus p cs = some (w, r)) : r.length < cs.length := by
  obtain ⟨hw, hr, hne⟩ := scanPlus_eq_some h
  have e1 := congrArg List.length (List.takeWhile_append_dropWhile p cs)
  simp only [List.length_append] at e1
  have hpos : 0 < (cs.takeWhile p).length :=
    List.length_pos.mpr (by rw [← hw]; exact hne)
  rw [hr]
  omega

theorem dropWhile_head_false (p : Char → Bool) (l : List Char) (c : Char)
    (r : List Char) (h : l.dropWhile p = c :: r) : p c = false := by
  have h2 := List.head_dropWhile_not p l (by rw [h]; simp)
  have h3 : (l.dropWhile p).head (by rw [h]; simp) = c := by simp [h]
  rw [h3] at h2
  exact h2

/-- Split at the *last* `';'` (the greedy `(.*);` group), if any. -/
def splitLastSemi : List Char → Option (List Char × List Char)
  | [] => none
  | c :: cs =>
    match splitLastSemi cs with
    | some (b, a) => some (c :: b, a)
    | none => if c = ';' then some ([], cs) else none

/-- `^\s*$`. -/
def matchEmpty (cs : List Char) : Option StmtMatch :=
  if cs.dropWhile isSpaceChar = [] then some StmtMatch.empty_line else none

/-- The repetition `(\w+(?:\s+|;))+` of the `FORMAT` pattern: accumulate
each word together with its trailing whitespace or semicolon; the group
ends (successfully, provided at least one repetition matched) at the first
word that is not followed by whitespace or `';'`, or where no word
starts. -/
def scanFormatGroup (cs : List Char) (acc : List Char) :
    Option (List Char × List Char) :=
  match h1 : scanPlus isWordChar cs with
  | none => if acc = [] then none else some (acc, cs)
  | some (w, cs1) =>
    match h2 : scanPlus isSpaceChar cs1 with
    | some (sp, cs2) => scanFormatGroup cs2 (acc ++ w ++ sp)
    | none =>
      match cs1 with
      | ';' :: cs2 => scanFormatGroup cs2 (acc ++ w ++ [';'])
      | _ => if acc = [] then none else some (acc, cs)
termination_by cs.length
decreasing_by
  · obtain ⟨-, h2r, -⟩ := scanPlus_eq_some h2
    have l1 := scanPlus_rest_lt h1
    have l2 : cs2.length ≤ cs1.length := by
      rw [h2r]
      exact (List.dropWhile_sublist isSpaceChar).length_le
    omega
  · have l1 := scanPlus_rest_lt h1
    simp only [List.length_cons] at l1
    omega

/-- Python `str.split()` (no argument): split on whitespace runs, dropping
empty pieces. -/
def pySplit (cs : List Char) : List String :=
  match h : cs.dropWhile isSpaceChar with
  | [] => []
  | c :: rest =>
    String.mk ((c :: rest).takeWhile (fun x => !isSpaceChar x))
      :: pySplit ((c :: rest).dropWhile (fun x => !isSpaceChar x))
termination_by cs.length
decreasing_by
  have l1 : (cs.dropWhile isSpaceChar).length ≤ cs.length :=
    (List.dropWhile_sublist isSpaceChar).length_le
  rw [h] at l1
  have hc : isSpaceChar c = false := dropWhile_head_false isSpaceChar cs c rest h
  have hstep : (c :: rest).dropWhile (fun x => !isSpaceChar x)
      = rest.dropWhile (fun x => !isSpaceChar x) := by
    simp [List.dropWhile_cons, hc]
  have l2 : (rest.dropWhile (fun x => !isSpaceChar x)).length ≤ rest.length :=
    (List.dropWhile_sublist _).length_le
  rw [hstep]
  simp only [List.length_cons] at l1 ⊢
  omega

/-- `FORMAT\s+(?P<ports>(\w+(?:\s+|;))+)`, followed by the reader's
`str.split(match.group('ports'))`. -/
def matchFormat (cs : List Char) : Option StmtMatch := do
  let cs ← scanLit "FORMAT".data cs
  let (_, cs) ← scanPlus isSpaceChar cs
  let (grp, _) ← scanFormatGroup cs []
  some (StmtMatch.format_stmt (pySplit grp))

/-- `PORT\s+\w*\s*;`. -/
def matchPort (cs : List Char) : Option StmtMatch := do
  let cs ← scanLit "PORT".data cs
  let (_, cs) ← scanPlus isSpaceChar cs
  let (_, cs) := scanStar isWordChar cs
  let (_, cs) := scanStar isSpaceChar cs
  let _ ← scanLit [';'] cs
  some StmtMatch.port_stmt

/-- `R(?P<repeat>\d+)\s+(?P<dvc_name>\w*)\s+(?P<pin_state>\w+)\s+(?:\[%]\s*(?P<comment>.*);)?`. -/
def matchNormalVec (cs : List Char) : Option StmtMatch := do
  let cs ← scanLit ['R'] cs
  let (ds, cs) ← scanPlus isDigitChar cs
  let (_, cs) ← scanPlus isSpaceChar cs
  let (dvc, cs) := scanStar isWordChar cs
  let (_, cs) ← scanPlus isSpaceChar cs
  let (pinChars, cs) ← scanPlus isWordChar cs
  let (_, cs) ← scanPlus isSpaceChar cs
  let cmt : Option (List Char) :=
    match scanLit ['[', '%', ']'] cs with
    | none => none
    | some cs2 =>
      match splitLastSemi (scanStar isSpaceChar cs2).2 with
      | none => none
      | some (before, _) => some before
  some (StmtMatch.normal_vec (decToNat ds) (String.mk dvc) pinChars
    (cmt.map String.mk))

/-- `SQPG\s+MACT\s+(?P<retries>\d+)\s*;`. -/
def matchMact (cs : List Char) : Option StmtMatch := do
  let cs ← scanLit "SQPG".data cs
  let (_, cs) ← scanPlus isSpaceChar cs
  let cs ← scanLit "MACT".data cs
  let (_, cs) ← scanPlus isSpaceChar cs
  let (ds, cs) ← scanPlus isDigitChar cs
  let (_, cs) := scanStar isSpaceChar cs
  let _ ← scanLit [';'] cs
  some (StmtMatch.match_loop_begin (decToNat ds))

/-- `SQPG\s+MRPT\s+(?P<idle_vectors>\d+)\s*;`. -/
def matchMrpt (cs : List Char) : Option StmtMatch := do
  let cs ← scanLit "SQPG".data cs
  let (_, cs) ← scanPlus isSpaceChar cs
  let cs ← scanLit "MRPT".data cs
  let (_, cs) ← scanPlus isSpaceChar cs
  let (ds, cs) ← scanPlus isDigitChar cs
  let (_, cs) := scanStar isSpaceChar cs
  let _ ← scanLit [';'] cs
  some (StmtMatch.match_loop_idle_begin (decToNat ds))

/-- `SQPG\s+PADDING\s*;`. -/
def matchPadding (cs : List Char) : Option StmtMatch := do
  let cs ← scanLit "SQPG".data cs
  let (_, cs) ← scanPlus isSpaceChar cs
  let cs ← scanLit "PADDING".data cs
  let (_, cs) := scanStar isSpaceChar cs
  let _ ← scanLit [';'] cs
  some StmtMatch.match_loop_end

/-- `SQPG\s+LBGN\s+(?P<count>\d+)\s*;`. -/
def matchLbgn (cs : List Char) : Option StmtMatch := do
  let cs ← scanLit "SQPG".data cs
  let (_, cs) ← scanPlus isSpaceChar cs
  let cs ← scanLit "LBGN".data cs
  let (_, cs) ← scanPlus isSpaceChar cs
  let (ds, cs) ← scanPlus isDigitChar cs
  let (_, cs) := scanStar isSpaceChar cs
  let _ ← scanLit [';'] cs
  some (StmtMatch.loop_begin (decToNat ds))

/-- `SQPG\s+LEND\s*;`. -/
def matchLend (cs : List Char) : Option StmtMatch := do
  let cs ← scanLit "SQPG".data cs
  let (_, cs) ← scanPlus isSpaceChar cs
  let cs ← scanLit "LEND".data cs
  let (_, cs) := scanStar isSpaceChar cs
  let _ ← scanLit [';'] cs
  some StmtMatch.loop_end

/-- The `_matchers` table, tried in dictionary (insertion) order; `None`
models the `ValueError` for an unparseable line. -/
def classifyLine (line : String) : Option StmtMatch :=
  matchEmpty line.data <|> matchFormat line.data <|> matchPort line.data
    <|> matchNormalVec line.data <|> matchMact line.data <|> matchMrpt line.data
    <|> matchPadding line.data <|> matchLbgn line.data <|> matchLend line.data

/-- `physical_to_logical_map = {pin.get('avc_name', pin['name']):
logical_name for logical_name, pin in pins.items()}` (later duplicates
overwrite earlier ones, as in a dict comprehension). -/
def physToLogMap (pins : List (String × PinDecl)) : List (String × String) :=
  pins.foldl (fun m p => dictSet m (p.2.avc_name.getD p.2.name) p.1) []

/-- The pin-state dict comprehension of the `normal_vec` branch:
`{physical_to_logical_map[pin_order[i]]: value for i, value in
enumerate(pin_state)}`.  A missing index raises `IndexError`, a missing
physical name raises `KeyError`; both are surfaced as errors. -/
def buildPinMap (p2l : List (String × String)) (order : List String) :
    Nat → List Char → List (String × Char) → Except String (List (String × Char))
  | _, [], acc => Except.ok acc
  | i, ch :: restChars, acc =>
    match order.get? i with
    | none => Except.error "IndexError: list index out of range"
    | some phys =>
      match p2l.lookup phys with
      | none => Except.error ("KeyError: " ++ phys)
      | some log => buildPinMap p2l order (i + 1) restChars (dictSet acc log ch)

/-- `HP93000VectorReader.vectors()`: the generator, embedded as a recursive
line consumer.  It returns the vectors yielded before the generator
returns, the current `pin_order` state, and the unconsumed lines (the
generator returns on `MRPT`, `PADDING` and `LEND` statements and at end of
file; on `MACT` and `LBGN` it recursively collects the nested vector lists
with `list(self.vectors())`).  The returned-rest length bound carries the
termination argument. -/
def parseVecs (pins : List (String × PinDecl)) (lines : List String)
    (po : Option (List String)) :
    Except String (List Vector × Option (List String) ×
      { rest : List String // rest.length ≤ lines.length }) :=
  match lines with
  | [] => Except.ok ([], po, ⟨[], Nat.le_refl 0⟩)
  | line :: rest =>
    match classifyLine line with
    | none => Except.error ("Could not parse line: " ++ line)
    | some StmtMatch.empty_line =>
      match parseVecs pins rest po with
      | Except.error e => Except.error e
      | Except.ok (vs, po1, r1) => Except.ok (vs, po1, ⟨r1.1, Nat.le_succ_of_le r1.2⟩)
    | some (StmtMatch.format_stmt ports) =>
      match parseVecs pins rest (some ports) with
      | Except.error e => Except.error e
      | Except.ok (vs, po1, r1) => Except.ok (vs, po1, ⟨r1.1, Nat.le_succ_of_le r1.2⟩)
    | some StmtMatch.port_stmt =>
      match parseVecs pins rest po with
      | Except.error e => Except.error e
      | Except.ok (vs, po1, r1) => Except.ok (vs, po1, ⟨r1.1, Nat.le_succ_of_le r1.2⟩)
    | some (StmtMatch.normal_vec rep _dvc chars cmt) =>
      match po with
      | some (o :: os) =>
        match buildPinMap (physToLogMap pins) (o :: os) 0 chars [] with
        | Except.error e => Except.error e
        | Except.ok m =>
          match parseVecs pins rest po with
          | Except.error e => Except.error e
          | Except.ok (vs, po1, r1) =>
            Except.ok (Vector.vec { vector := m, vrepeat := rep, comment := cmt }
              :: vs, po1, ⟨r1.1, Nat.le_succ_of_le r1.2⟩)
      | _ => Except.error "Encountered vector statement before reading format statement"
    | some (StmtMatch.match_loop_begin retries) =>
      match parseVecs pins rest po with
      | Except.error e => Except.error e
      | Except.ok (cond, po1, r1) =>
        match parseVecs pins r1.1 po1 with
        | Except.error e => Except.error e
        | Except.ok (idle, po2, r2) =>
          match parseVecs pins r2.1 po2 with
          | Except.error e => Except.error e
          | Except.ok (vs, po3, r3) =>
            Except.ok (Vector.match_loop cond idle retries :: vs, po3,
              ⟨r3.1, by
                have b1 := r1.2
                have b2 := r2.2
                have b3 := r3.2
                simp only [List.length_cons]
                omega⟩)
    | some (StmtMatch.match_loop_idle_begin _) =>
      Except.ok ([], po, ⟨rest, Nat.le_succ_of_le (Nat.le_refl rest.length)⟩)
    | some StmtMatch.match_loop_end =>
      Except.ok ([], po, ⟨rest, Nat.le_succ_of_le (Nat.le_refl rest.length)⟩)
    | some (StmtMatch.loop_begin count) =>
      match parseVecs pins rest po with
      | Except.error e => Except.error e
      | Except.ok (body, po1, r1) =>
        match parseVecs pins r1.1 po1 with
        | Except.error e => Except.error e
        | Except.ok (vs, po2, r2) =>
          Except.ok (Vector.loop body count :: vs, po2,
            ⟨r2.1, by
              have b1 := r1.2
              have b2 := r2.2
              simp only [List.length_cons]
              omega⟩)
    | some StmtMatch.loop_end =>
      Except.ok ([], po, ⟨rest, Nat.le_succ_of_le (Nat.le_refl rest.length)⟩)
termination_by lines.length
decreasing_by
  all_goals simp only [List.length_cons]
  all_goals omega

/-- `parseVecs` with the termination bound erased, for equational reasoning. -/
def parseVecsE (pins : List (String × PinDecl)) (lines : List String)
    (po : Option (List String)) :
    Except String (List Vector × Option (List String) × List String) :=
  match parseVecs pins lines po with
  | Except.error e => Except.error e
  | Except.ok (vs, po1, r) => Except.ok (vs, po1, r.1)

/-- `list(HP93000VectorReader.vectors())` over a whole file. -/
def readerVectors (pins : List (String × PinDecl)) (lines : List String) :
    Except String (List Vector) :=
  match parseVecs pins lines none with
  | Except.error e => Except.error e
  | Except.ok (vs, _, _) => Except.ok vs

/-! ## The round-trip normal form -/

/-- What the write-then-parse pipeline does to a comment: a falsy comment
(absent or empty) is not written and parses back as `None`; a truthy
comment `c` is written as `"[%] " ++ c ++ " ;"`, of which the greedy
`\s*` eats the leading whitespace and the greedy `(.*);` captures the rest
up to the final semicolon, i.e. `dropWhile isSpace (c ++ " ")`. -/
def normComment (c : Option String) : Option String :=
  if strTruthy c then
    some (String.mk (List.dropWhile isSpaceChar ((c.getD "").data ++ [' '])))
  else none

/-- What the write-then-parse pipeline does to a pin-state map: the parsed
map lists the logical pins in sorted order, each with the character the
writer rendered for it. -/
def parsedPinMap (pins : List (String × PinDecl)) (m : List (String × Char)) :
    List (String × Char) :=
  (sortPins pins).map (fun p => (p.1, (m.lookup p.1).getD '?'))

mutual

/-- The normal form in which a vector returns from the AVC round trip:
pin maps are re-keyed in sorted order, comments are normalised, repeats and
loop/matched-loop structure are untouched. -/
def parsedVec (pins : List (String × PinDecl)) : Vector → Vector
  | Vector.vec v =>
    Vector.vec { vector := parsedPinMap pins v.vector, vrepeat := v.vrepeat,
                 comment := normComment v.comment }
  | Vector.match_loop c i r =>
    Vector.match_loop (parsedVecList pins c) (parsedVecList pins i) r
  | Vector.loop b r => Vector.loop (parsedVecList pins b) r

def parsedVecList (pins : List (String × PinDecl)) : List Vector → List Vector
  | [] => []
  | v :: vs => parsedVec pins v :: parsedVecList pins vs

end

/-! ## Well-formedness hypotheses of the round trip -/

/-- A well-formed pin declaration set: at least one pin, unique logical
names, unique physical names, no separate `avc_name`, and physical names
that are nonempty words. -/
def pinsWF (pins : List (String × PinDecl)) : Prop :=
  pins ≠ []
  ∧ (pins.map (fun p => p.1)).Nodup
  ∧ (pins.map (fun p => p.2.name)).Nodup
  ∧ ∀ p ∈ pins, p.2.avc_name = none ∧ p.2.name ≠ ""
      ∧ ∀ ch ∈ p.2.name.data, isWordChar ch = true

/-- A normal vector the writer can render and the reader can recover:
every declared logical pin has a word-character state, and the comment
contains no newline (which would break the line structure of the file). -/
def normalVecWF (pins : List (String × PinDecl)) (v : NormalVector) : Bool :=
  (pins.map (fun p => p.1)).all
      (fun k =>
        match v.vector.lookup k with
        | some ch => isWordChar ch
        | none => false)
    && (v.comment.getD "").data.all (fun ch => decide (ch ≠ '\n') && decide (ch ≠ '\r'))

mutual

def vecWF (pins : List (String × PinDecl)) : Vector → Bool
  | Vector.vec v => normalVecWF pins v
  | Vector.match_loop c i _ => vecListWF pins c && vecListWF pins i
  | Vector.loop b _ => vecListWF pins b

def vecListWF (pins : List (String × PinDecl)) : List Vector → Bool
  | [] => true
  | v :: vs => vecWF pins v && vecListWF pins vs

end

/-! ## Round-trip lemma layer: character classes -/

theorem word_not_space {c : Char} (h : isWordChar c = true) :
    isSpaceChar c = false := by
  simp only [isWordChar, decide_eq_true_eq] at h
  simp only [isSpaceChar, decide_eq_false_iff_not]
  rintro (rfl | rfl | rfl | rfl | rfl | rfl) <;> exact absurd h (by decide)

theorem digit_is_word {c : Char} (h : isDigitChar c = true) :
    isWordChar c = true := by
  simp only [isDigitChar, decide_eq_true_eq] at h
  simp only [isWordChar, decide_eq_true_eq]
  exact Or.inr (Or.inr (Or.inl h))

/-! ## Decimal rendering round trip -/

theorem digitChar_toNat {k : Nat} (h : k < 10) : (digitChar k).toNat = 48 + k := by
  interval_cases k <;> decide

theorem digitChar_isDigit {k : Nat} (h : k < 10) :
    isDigitChar (digitChar k) = true := by
  interval_cases k <;> decide

theorem natDecGo_shape : ∀ (fuel n : Nat) (acc : List Char),
    ∃ pre, natDecGo fuel n acc = pre ++ acc ∧ ∀ c ∈ pre, isDigitChar c = true
  | 0, _, acc => ⟨[], rfl, by simp⟩
  | fuel + 1, n, acc => by
    unfold natDecGo
    by_cases h : n = 0
    · exact ⟨[], by simp [h], by simp⟩
    · simp only [h, if_false]
      obtain ⟨pre, he, hd⟩ := natDecGo_shape fuel (n / 10) (digitChar (n % 10) :: acc)
      refine ⟨pre ++ [digitChar (n % 10)], ?_, ?_⟩
      · rw [he]
        simp
      · intro c hc
        rcases List.mem_append.mp hc with h1 | h1
        · exact hd c h1
        · have : c = digitChar (n % 10) := by simpa using h1
          rw [this]
          exact digitChar_isDigit (Nat.mod_lt n (by omega))

theorem natDec_digits (n : Nat) : ∀ c ∈ natDec n, isDigitChar c = true := by
  unfold natDec
  by_cases h : n = 0
  · intro c hc
    simp [h] at hc
    rw [hc]
    decide
  · simp only [h, if_false]
    obtain ⟨pre, he, hd⟩ := natDecGo_shape (n + 1) n []
    rw [he, List.append_nil]
    exact hd

theorem natDecGo_zero (fuel : Nat) (acc : List Char) : natDecGo fuel 0 acc = acc := by
  cases fuel <;> simp [natDecGo]

theorem natDec_ne_nil (n : Nat) : natDec n ≠ [] := by
  unfold natDec
  by_cases h : n = 0
  · simp [h]
  · simp only [h, if_false]
    unfold natDecGo
    simp only [h, if_false]
    obtain ⟨pre, he, -⟩ := natDecGo_shape n (n / 10) (digitChar (n % 10) :: [])
    rw [he]
    simp

theorem foldl_natDecGo : ∀ (fuel : Nat), ∀ (n : Nat), n < 10 ^ fuel → n ≠ 0 →
    ∀ (acc : List Char),
    List.foldl (fun a c => 10 * a + (c.toNat - 48)) 0 (natDecGo fuel n acc)
      = List.foldl (fun a c => 10 * a + (c.toNat - 48)) n acc := by
  intro fuel
  induction fuel with
  | zero => intro n hlt hne acc; omega
  | succ fuel ih =>
    intro n hlt hne acc
    unfold natDecGo
    simp only [hne, if_false]
    have hd : (digitChar (n % 10)).toNat = 48 + n % 10 :=
      digitChar_toNat (Nat.mod_lt n (by omega))
    by_cases h10 : n / 10 = 0
    · rw [h10, natDecGo_zero]
      simp only [List.foldl_cons, hd]
      have hn10 : n % 10 = n := Nat.mod_eq_of_lt (by omega)
      congr 1
      omega
    · have hlt2 : n / 10 < 10 ^ fuel := by
        rw [Nat.div_lt_iff_lt_mul (by omega)]
        calc n < 10 ^ (fuel + 1) := hlt
        _ = 10 ^ fuel * 10 := by ring
      rw [ih (n / 10) hlt2 h10]
      simp only [List.foldl_cons, hd]
      congr 1
      omega

theorem decToNat_natDec (n : Nat) : decToNat (natDec n) = n := by
  unfold decToNat natDec
  by_cases h : n = 0
  · simp [h]
  · simp only [h, if_false]
    have hlt : n < 10 ^ (n + 1) := by
      calc n < 10 ^ n := Nat.lt_pow_self (by norm_num) n
      _ ≤ 10 ^ (n + 1) := Nat.pow_le_pow_right (by norm_num) (Nat.le_succ n)
    have := foldl_natDecGo (n + 1) n hlt h []
    simpa using this

/-! ## Scanner lemmas -/

/-- The next character (if any) does not satisfy `p`. -/
def headFails (p : Char → Bool) : List Char → Prop
  | [] => True
  | c :: _ => p c = false

theorem takeWhile_headFails {p : Char → Bool} {l : List Char} (h : headFails p l) :
    l.takeWhile p = [] := by
  cases l with
  | nil => rfl
  | cons c t => exact List.takeWhile_cons_of_neg (by simp only [headFails] at h; simp [h])

theorem dropWhile_headFails {p : Char → Bool} {l : List Char} (h : headFails p l) :
    l.dropWhile p = l := by
  cases l with
  | nil => rfl
  | cons c t => exact List.dropWhile_cons_of_neg (by simp only [headFails] at h; simp [h])

theorem scanLit_self : ∀ (l cs : List Char), scanLit l (l ++ cs) = some cs
  | [], _ => rfl
  | c :: ls, cs => by simp [scanLit, scanLit_self ls cs]

theorem scanLit_cons_ne {l c : Char} (ls cs : List Char) (h : c ≠ l) :
    scanLit (l :: ls) (c :: cs) = none := by
  simp [scanLit, h]

theorem scanPlus_exact {p : Char → Bool} {w rest : List Char} (hne : w ≠ [])
    (hall : ∀ c ∈ w, p c = true) (hr : headFails p rest) :
    scanPlus p (w ++ rest) = some (w, rest) := by
  unfold scanPlus
  rw [List.takeWhile_append_of_pos hall, takeWhile_headFails hr,
      List.dropWhile_append_of_pos hall, dropWhile_headFails hr, List.append_nil]
  cases w with
  | nil => exact absurd rfl hne
  | cons c cs => rfl

theorem scanPlus_headFails {p : Char → Bool} {cs : List Char} (h : headFails p cs) :
    scanPlus p cs = none := by
  unfold scanPlus
  rw [takeWhile_headFails h]

theorem scanStar_exact {p : Char → Bool} {w rest : List Char}
    (hall : ∀ c ∈ w, p c = true) (hr : headFails p rest) :
    scanStar p (w ++ rest) = (w, rest) := by
  unfold scanStar
  rw [List.takeWhile_append_of_pos hall, takeWhile_headFails hr,
      List.dropWhile_append_of_pos hall, dropWhile_headFails hr, List.append_nil]

theorem splitLastSemi_none : ∀ {l : List Char}, (∀ c ∈ l, c ≠ ';') →
    splitLastSemi l = none
  | [], _ => rfl
  | c :: cs, h => by
    unfold splitLastSemi
    rw [splitLastSemi_none (fun x hx => h x (List.mem_cons_of_mem c hx))]
    simp [h c (List.mem_cons_self c cs)]

theorem splitLastSemi_last : ∀ (xs : List Char), splitLastSemi (xs ++ [';']) = some (xs, [])
  | [] => rfl
  | c :: xs => by
    simp only [List.cons_append]
    unfold splitLastSemi
    rw [splitLastSemi_last xs]

theorem get?_of_drop {α : Type} : ∀ (l : List α) (i : Nat) (a : α) (t : List α),
    l.drop i = a :: t → l.get? i = some a
  | l, 0, a, t, h => by
    rw [List.drop_zero] at h
    rw [h]
    rfl
  | [], i + 1, a, t, h => by simp at h
  | x :: xs, i + 1, a, t, h => by
    simp only [List.drop_succ_cons] at h
    simpa using get?_of_drop xs i a t h

theorem drop_succ_of_drop {α : Type} (l : List α) (i : Nat) (a : α) (t : List α)
    (h : l.drop i = a :: t) : l.drop (i + 1) = t := by
  rw [← List.drop_drop 1 i l, h]
  rfl

/-! ## Line classification of the writer's output -/

theorem digit_not_space {c : Char} (h : isDigitChar c = true) : isSpaceChar c = false :=
  word_not_space (digit_is_word h)

theorem headFails_space_of_digits {ds : List Char} (h : ∀ c ∈ ds, isDigitChar c = true) :
    headFails isSpaceChar ds := by
  cases ds with
  | nil => trivial
  | cons c t => exact digit_not_space (h c (List.mem_cons_self c t))

theorem headFails_space_of_words {ws : List Char} (h : ∀ c ∈ ws, isWordChar c = true) :
    headFails isSpaceChar ws := by
  cases ws with
  | nil => trivial
  | cons c t => exact word_not_space (h c (List.mem_cons_self c t))

theorem headFails_space_append_digits {ds rest : List Char} (hne : ds ≠ [])
    (h : ∀ c ∈ ds, isDigitChar c = true) : headFails isSpaceChar (ds ++ rest) := by
  cases ds with
  | nil => exact absurd rfl hne
  | cons c t => exact digit_not_space (h c (List.mem_cons_self c t))

theorem headFails_space_append_words {ws rest : List Char} (hne : ws ≠ [])
    (h : ∀ c ∈ ws, isWordChar c = true) : headFails isSpaceChar (ws ++ rest) := by
  cases ws with
  | nil => exact absurd rfl hne
  | cons c t => exact word_not_space (h c (List.mem_cons_self c t))

theorem matchEmpty_cons {c : Char} (cs : List Char) (h : isSpaceChar c = false) :
    matchEmpty (c :: cs) = none := by
  unfold matchEmpty
  rw [List.dropWhile_cons_of_neg (by simp [h])]
  simp

theorem scanPlus_space_one {rest : List Char} (hr : headFails isSpaceChar rest) :
    scanPlus isSpaceChar (' ' :: rest) = some ([' '], rest) :=
  @scanPlus_exact isSpaceChar [' '] rest (by simp)
    (by intro c hc; simp at hc; rw [hc]; rfl) hr

theorem classify_padding : classifyLine "SQPG PADDING ;" = some StmtMatch.match_loop_end := by
  decide

theorem classify_lend : classifyLine "SQPG LEND ;" = some StmtMatch.loop_end := by
  decide

theorem classify_mact (r : Nat) :
    classifyLine ("SQPG MACT " ++ String.mk (natDec r) ++ " ;")
      = some (StmtMatch.match_loop_begin r) := by
  have hds := natDec_digits r
  have hne := natDec_ne_nil r
  have hdata : ("SQPG MACT " ++ String.mk (natDec r) ++ " ;").data
      = 'S' :: 'Q' :: 'P' :: 'G' :: ' ' :: 'M' :: 'A' :: 'C' :: 'T' :: ' '
          :: (natDec r ++ [' ', ';']) := by
    simp only [String.data_append]
    rfl
  have m1 : matchEmpty ('S' :: 'Q' :: 'P' :: 'G' :: ' ' :: 'M' :: 'A' :: 'C' :: 'T' :: ' '
      :: (natDec r ++ [' ', ';'])) = none := matchEmpty_cons _ (by decide)
  have e2a : scanLit "FORMAT".data ('S' :: 'Q' :: 'P' :: 'G' :: ' ' :: 'M' :: 'A' :: 'C'
      :: 'T' :: ' ' :: (natDec r ++ [' ', ';'])) = none :=
    scanLit_cons_ne "ORMAT".data _ (by decide)
  have e3a : scanLit "PORT".data ('S' :: 'Q' :: 'P' :: 'G' :: ' ' :: 'M' :: 'A' :: 'C'
      :: 'T' :: ' ' :: (natDec r ++ [' ', ';'])) = none :=
    scanLit_cons_ne "ORT".data _ (by decide)
  have e4a : scanLit ['R'] ('S' :: 'Q' :: 'P' :: 'G' :: ' ' :: 'M' :: 'A' :: 'C'
      :: 'T' :: ' ' :: (natDec r ++ [' ', ';'])) = none :=
    scanLit_cons_ne [] _ (by decide)
  have e1 : scanLit "SQPG".data ('S' :: 'Q' :: 'P' :: 'G' :: ' ' :: 'M' :: 'A' :: 'C'
      :: 'T' :: ' ' :: (natDec r ++ [' ', ';']))
      = some (' ' :: 'M' :: 'A' :: 'C' :: 'T' :: ' ' :: (natDec r ++ [' ', ';'])) :=
    scanLit_self "SQPG".data _
  have e2 : scanPlus isSpaceChar (' ' :: 'M' :: 'A' :: 'C' :: 'T' :: ' '
      :: (natDec r ++ [' ', ';']))
      = some ([' '], 'M' :: 'A' :: 'C' :: 'T' :: ' ' :: (natDec r ++ [' ', ';'])) := by
    refine scanPlus_space_one ?_
    exact rfl
  have e3 : scanLit "MACT".data ('M' :: 'A' :: 'C' :: 'T' :: ' ' :: (natDec r ++ [' ', ';']))
      = some (' ' :: (natDec r ++ [' ', ';'])) := scanLit_self "MACT".data _
  have e4 : scanPlus isSpaceChar (' ' :: (natDec r ++ [' ', ';']))
      = some ([' '], natDec r ++ [' ', ';']) :=
    scanPlus_space_one (headFails_space_append_digits hne hds)
  have e5 : scanPlus isDigitChar (natDec r ++ [' ', ';'])
      = some (natDec r, [' ', ';']) := scanPlus_exact hne hds rfl
  have m5 : matchMact ('S' :: 'Q' :: 'P' :: 'G' :: ' ' :: 'M' :: 'A' :: 'C' :: 'T' :: ' '
      :: (natDec r ++ [' ', ';'])) = some (StmtMatch.match_loop_begin r) := by
    simp only [matchMact, e1, e2, e3, e4, e5, Option.bind_eq_bind, Option.some_bind,
      decToNat_natDec]
    rfl
  unfold classifyLine
  rw [hdata]
  simp only [matchFormat, matchPort, matchNormalVec, m1, e2a, e3a, e4a, m5,
    Option.bind_eq_bind, Option.none_bind, Option.none_orElse, Option.some_orElse]

theorem classify_mrpt (r : Nat) :
    classifyLine ("SQPG MRPT " ++ String.mk (natDec r) ++ " ;")
      = some (StmtMatch.match_loop_idle_begin r) := by
  have hds := natDec_digits r
  have hne := natDec_ne_nil r
  have hdata : ("SQPG MRPT " ++ String.mk (natDec r) ++ " ;").data
      = 'S' :: 'Q' :: 'P' :: 'G' :: ' ' :: 'M' :: 'R' :: 'P' :: 'T' :: ' '
          :: (natDec r ++ [' ', ';']) := by
    simp only [String.data_append]
    rfl
  have m1 : matchEmpty ('S' :: 'Q' :: 'P' :: 'G' :: ' ' :: 'M' :: 'R' :: 'P' :: 'T' :: ' '
      :: (natDec r ++ [' ', ';'])) = none := matchEmpty_cons _ (by decide)
  have e2a : scanLit "FORMAT".data ('S' :: 'Q' :: 'P' :: 'G' :: ' ' :: 'M' :: 'R' :: 'P'
      :: 'T' :: ' ' :: (natDec r ++ [' ', ';'])) = none :=
    scanLit_cons_ne "ORMAT".data _ (by decide)
  have e3a : scanLit "PORT".data ('S' :: 'Q' :: 'P' :: 'G' :: ' ' :: 'M' :: 'R' :: 'P'
      :: 'T' :: ' ' :: (natDec r ++ [' ', ';'])) = none :=
    scanLit_cons_ne "ORT".data _ (by decide)
  have e4a : scanLit ['R'] ('S' :: 'Q' :: 'P' :: 'G' :: ' ' :: 'M' :: 'R' :: 'P'
      :: 'T' :: ' ' :: (natDec r ++ [' ', ';'])) = none :=
    scanLit_cons_ne [] _ (by decide)
  have e1 : scanLit "SQPG".data ('S' :: 'Q' :: 'P' :: 'G' :: ' ' :: 'M' :: 'R' :: 'P'
      :: 'T' :: ' ' :: (natDec r ++ [' ', ';']))
      = some (' ' :: 'M' :: 'R' :: 'P' :: 'T' :: ' ' :: (natDec r ++ [' ', ';'])) :=
    scanLit_self "SQPG".data _
  have e2 : scanPlus isSpaceChar (' ' :: 'M' :: 'R' :: 'P' :: 'T' :: ' '
      :: (natDec r ++ [' ', ';']))
      = some ([' '], 'M' :: 'R' :: 'P' :: 'T' :: ' ' :: (natDec r ++ [' ', ';'])) := by
    refine scanPlus_space_one ?_
    exact rfl
  have eMact : scanLit "MACT".data ('M' :: 'R' :: 'P' :: 'T' :: ' '
      :: (natDec r ++ [' ', ';'])) = none := by
    have h1 : scanLit "MACT".data ('M' :: 'R' :: 'P' :: 'T' :: ' '
        :: (natDec r ++ [' ', ';']))
        = scanLit "ACT".data ('R' :: 'P' :: 'T' :: ' ' :: (natDec r ++ [' ', ';'])) := rfl
    rw [h1]
    exact scanLit_cons_ne "CT".data _ (by decide)
  have e3 : scanLit "MRPT".data ('M' :: 'R' :: 'P' :: 'T' :: ' ' :: (natDec r ++ [' ', ';']))
      = some (' ' :: (natDec r ++ [' ', ';'])) := scanLit_self "MRPT".data _
  have e4 : scanPlus isSpaceChar (' ' :: (natDec r ++ [' ', ';']))
      = some ([' '], natDec r ++ [' ', ';']) :=
    scanPlus_space_one (headFails_space_append_digits hne hds)
  have e5 : scanPlus isDigitChar (natDec r ++ [' ', ';'])
      = some (natDec r, [' ', ';']) := scanPlus_exact hne hds rfl
  have m6 : matchMrpt ('S' :: 'Q' :: 'P' :: 'G' :: ' ' :: 'M' :: 'R' :: 'P' :: 'T' :: ' '
      :: (natDec r ++ [' ', ';'])) = some (StmtMatch.match_loop_idle_begin r) := by
    simp only [matchMrpt, e1, e2, e3, e4, e5, Option.bind_eq_bind, Option.some_bind,
      decToNat_natDec]
    rfl
  have m5 : matchMact ('S' :: 'Q' :: 'P' :: 'G' :: ' ' :: 'M' :: 'R' :: 'P' :: 'T' :: ' '
      :: (natDec r ++ [' ', ';'])) = none := by
    simp only [matchMact, e1, e2, eMact, Option.bind_eq_bind, Option.some_bind,
      Option.none_bind]
  unfold classifyLine
  rw [hdata]
  simp only [matchFormat, matchPort, matchNormalVec, m1, e2a, e3a, e4a, m5, m6,
    Option.bind_eq_bind, Option.none_bind, Option.none_orElse, Option.some_orElse]

theorem classify_lbgn (r : Nat) :
    classifyLine ("SQPG LBGN " ++ String.mk (natDec r) ++ " ;")
      = some (StmtMatch.loop_begin r) := by
  have hds := natDec_digits r
  have hne := natDec_ne_nil r
  have hdata : ("SQPG LBGN " ++ String.mk (natDec r) ++ " ;").data
      = 'S' :: 'Q' :: 'P' :: 'G' :: ' ' :: 'L' :: 'B' :: 'G' :: 'N' :: ' '
          :: (natDec r ++ [' ', ';']) := by
    simp only [String.data_append]
    rfl
  have m1 : matchEmpty ('S' :: 'Q' :: 'P' :: 'G' :: ' ' :: 'L' :: 'B' :: 'G' :: 'N' :: ' '
      :: (natDec r ++ [' ', ';'])) = none := matchEmpty_cons _ (by decide)
  have e2a : scanLit "FORMAT".data ('S' :: 'Q' :: 'P' :: 'G' :: ' ' :: 'L' :: 'B' :: 'G'
      :: 'N' :: ' ' :: (natDec r ++ [' ', ';'])) = none :=
    scanLit_cons_ne "ORMAT".data _ (by decide)
  have e3a : scanLit "PORT".data ('S' :: 'Q' :: 'P' :: 'G' :: ' ' :: 'L' :: 'B' :: 'G'
      :: 'N' :: ' ' :: (natDec r ++ [' ', ';'])) = none :=
    scanLit_cons_ne "ORT".data _ (by decide)
  have e4a : scanLit ['R'] ('S' :: 'Q' :: 'P' :: 'G' :: ' ' :: 'L' :: 'B' :: 'G'
      :: 'N' :: ' ' :: (natDec r ++ [' ', ';'])) = none :=
    scanLit_cons_ne [] _ (by decide)
  have e1 : scanLit "SQPG".data ('S' :: 'Q' :: 'P' :: 'G' :: ' ' :: 'L' :: 'B' :: 'G'
      :: 'N' :: ' ' :: (natDec r ++ [' ', ';']))
      = some (' ' :: 'L' :: 'B' :: 'G' :: 'N' :: ' ' :: (natDec r ++ [' ', ';'])) :=
    scanLit_self "SQPG".data _
  have e2 : scanPlus isSpaceChar (' ' :: 'L' :: 'B' :: 'G' :: 'N' :: ' '
      :: (natDec r ++ [' ', ';']))
      = some ([' '], 'L' :: 'B' :: 'G' :: 'N' :: ' ' :: (natDec r ++ [' ', ';'])) := by
    refine scanPlus_space_one ?_
    exact rfl
  have eMact : scanLit "MACT".data ('L' :: 'B' :: 'G' :: 'N' :: ' '
      :: (natDec r ++ [' ', ';'])) = none := scanLit_cons_ne "ACT".data _ (by decide)
  have eMrpt : scanLit "MRPT".data ('L' :: 'B' :: 'G' :: 'N' :: ' '
      :: (natDec r ++ [' ', ';'])) = none := scanLit_cons_ne "RPT".data _ (by decide)
  have ePad : scanLit "PADDING".data ('L' :: 'B' :: 'G' :: 'N' :: ' '
      :: (natDec r ++ [' ', ';'])) = none := scanLit_cons_ne "ADDING".data _ (by decide)
  have e3 : scanLit "LBGN".data ('L' :: 'B' :: 'G' :: 'N' :: ' ' :: (natDec r ++ [' ', ';']))
      = some (' ' :: (natDec r ++ [' ', ';'])) := scanLit_self "LBGN".data _
  have e4 : scanPlus isSpaceChar (' ' :: (natDec r ++ [' ', ';']))
      = some ([' '], natDec r ++ [' ', ';']) :=
    scanPlus_space_one (headFails_space_append_digits hne hds)
  have e5 : scanPlus isDigitChar (natDec r ++ [' ', ';'])
      = some (natDec r, [' ', ';']) := scanPlus_exact hne hds rfl
  have m8 : matchLbgn ('S' :: 'Q' :: 'P' :: 'G' :: ' ' :: 'L' :: 'B' :: 'G' :: 'N' :: ' '
      :: (natDec r ++ [' ', ';'])) = some (StmtMatch.loop_begin r) := by
    simp only [matchLbgn, e1, e2, e3, e4, e5, Option.bind_eq_bind, Option.some_bind,
      decToNat_natDec]
    rfl
  have m5 : matchMact ('S' :: 'Q' :: 'P' :: 'G' :: ' ' :: 'L' :: 'B' :: 'G' :: 'N' :: ' '
      :: (natDec r ++ [' ', ';'])) = none := by
    simp only [matchMact, e1, e2, eMact, Option.bind_eq_bind, Option.some_bind,
      Option.none_bind]
  have m6 : matchMrpt ('S' :: 'Q' :: 'P' :: 'G' :: ' ' :: 'L' :: 'B' :: 'G' :: 'N' :: ' '
      :: (natDec r ++ [' ', ';'])) = none := by
    simp only [matchMrpt, e1, e2, eMrpt, Option.bind_eq_bind, Option.some_bind,
      Option.none_bind]
  have m7 : matchPadding ('S' :: 'Q' :: 'P' :: 'G' :: ' ' :: 'L' :: 'B' :: 'G' :: 'N' :: ' '
      :: (natDec r ++ [' ', ';'])) = none := by
    simp only [matchPadding, e1, e2, ePad, Option.bind_eq_bind, Option.some_bind,
      Option.none_bind]
  unfold classifyLine
  rw [hdata]
  simp only [matchFormat, matchPort, matchNormalVec, m1, e2a, e3a, e4a, m5, m6, m7, m8,
    Option.bind_eq_bind, Option.none_bind, Option.none_orElse, Option.some_orElse]

theorem scanFormatGroup_word_space {cs w cs1 sp cs2 : List Char} (acc : List Char)
    (e1 : scanPlus isWordChar cs = some (w, cs1))
    (e2 : scanPlus isSpaceChar cs1 = some (sp, cs2)) :
    scanFormatGroup cs acc = scanFormatGroup cs2 (acc ++ w ++ sp) := by
  rw [scanFormatGroup.eq_def]
  split
  · rename_i h1
    rw [e1] at h1
    exact Option.noConfusion h1
  · rename_i w2 cs12 h1
    rw [e1] at h1
    injection h1 with h1
    injection h1 with hw hcs
    subst hw
    subst hcs
    split
    · rename_i sp2 cs22 h2
      rw [e2] at h2
      injection h2 with h2
      injection h2 with hsp hcs2
      subst hsp
      subst hcs2
      rfl
    · rename_i h2
      rw [e2] at h2
      exact Option.noConfusion h2

theorem scanFormatGroup_stop {cs : List Char} (acc : List Char) (hacc : acc ≠ [])
    (e1 : scanPlus isWordChar cs = none) :
    scanFormatGroup cs acc = some (acc, cs) := by
  rw [scanFormatGroup.eq_def]
  split
  · simp [hacc]
  · rename_i w2 cs12 h1
    rw [e1] at h1
    exact Option.noConfusion h1

theorem joinSpace_head : ∀ (nm : String) (rest : List String),
    ∃ t, (joinSpace (nm :: rest)).data = nm.data ++ t
  | nm, [] => ⟨[], by simp [joinSpace]⟩
  | nm, y :: ys => ⟨(" " ++ joinSpace (y :: ys)).data, by
      simp [joinSpace, String.data_append]⟩

theorem scanFormatGroup_spec : ∀ (names : List String) (acc : List Char),
    (∀ nm ∈ names, nm.data ≠ [] ∧ ∀ c ∈ nm.data, isWordChar c = true) →
    names ≠ [] →
    scanFormatGroup ((joinSpace names).data ++ [' ', ';']) acc
      = some ((acc ++ (joinSpace names).data) ++ [' '], [';'])
  | [], _, _, hne => absurd rfl hne
  | [nm], acc, hWF, _ => by
    obtain ⟨hne, hw⟩ := hWF nm (by simp)
    have e1 : scanPlus isWordChar ((joinSpace [nm]).data ++ [' ', ';'])
        = some (nm.data, [' ', ';']) := scanPlus_exact hne hw rfl
    have e2 : scanPlus isSpaceChar [' ', ';'] = some ([' '], [';']) := rfl
    have e3 : scanPlus isWordChar [';'] = none := rfl
    rw [scanFormatGroup_word_space acc e1 e2]
    rw [scanFormatGroup_stop (acc ++ nm.data ++ [' ']) (by simp) e3]
    simp [joinSpace]
  | nm :: nm2 :: rest, acc, hWF, _ => by
    obtain ⟨hne, hw⟩ := hWF nm (by simp)
    obtain ⟨hne2, hw2⟩ := hWF nm2 (by simp)
    obtain ⟨t, ht⟩ := joinSpace_head nm2 rest
    have hdata : (joinSpace (nm :: nm2 :: rest)).data ++ [' ', ';']
        = nm.data ++ (' ' :: ((joinSpace (nm2 :: rest)).data ++ [' ', ';'])) := by
      show (nm ++ " " ++ joinSpace (nm2 :: rest)).data ++ [' ', ';'] = _
      simp [String.data_append]
    have e1 : scanPlus isWordChar
        (nm.data ++ (' ' :: ((joinSpace (nm2 :: rest)).data ++ [' ', ';'])))
        = some (nm.data, ' ' :: ((joinSpace (nm2 :: rest)).data ++ [' ', ';'])) :=
      scanPlus_exact hne hw rfl
    have e2 : scanPlus isSpaceChar (' ' :: ((joinSpace (nm2 :: rest)).data ++ [' ', ';']))
        = some ([' '], (joinSpace (nm2 :: rest)).data ++ [' ', ';']) := by
      refine scanPlus_space_one ?_
      rw [ht, List.append_assoc]
      exact headFails_space_append_words hne2 hw2
    have hjoin : (joinSpace (nm :: nm2 :: rest)).data
        = nm.data ++ ' ' :: (joinSpace (nm2 :: rest)).data := by
      show (nm ++ " " ++ joinSpace (nm2 :: rest)).data = _
      simp [String.data_append]
    rw [hdata, scanFormatGroup_word_space acc e1 e2]
    rw [scanFormatGroup_spec (nm2 :: rest) (acc ++ nm.data ++ [' '])
      (fun x hx => hWF x (List.mem_cons_of_mem nm hx)) (by simp)]
    rw [hjoin]
    simp [List.append_assoc]

theorem pySplit_nil {cs : List Char} (h : cs.dropWhile isSpaceChar = []) :
    pySplit cs = [] := by
  rw [pySplit.eq_def]
  split
  · rfl
  · rename_i c r hdw
    rw [h] at hdw
    exact List.noConfusion hdw

theorem pySplit_step {cs : List Char} {c : Char} {r : List Char}
    (h : cs.dropWhile isSpaceChar = c :: r) :
    pySplit cs = String.mk ((c :: r).takeWhile (fun x => !isSpaceChar x))
      :: pySplit ((c :: r).dropWhile (fun x => !isSpaceChar x)) := by
  rw [pySplit.eq_def]
  split
  · rename_i hdw
    rw [h] at hdw
    exact List.noConfusion hdw
  · rename_i c2 r2 hdw
    rw [h] at hdw
    injection hdw with hc hr
    subst hc
    subst hr
    rfl

theorem pySplit_join_aux : ∀ (names : List String) (pre : List Char),
    (∀ nm ∈ names, nm.data ≠ [] ∧ ∀ c ∈ nm.data, isWordChar c = true) →
    (∀ c ∈ pre, isSpaceChar c = true) →
    pySplit (pre ++ ((joinSpace names).data ++ [' '])) = names
  | [], pre, _, hpre => by
    refine pySplit_nil ?_
    rw [show (joinSpace []).data = ([] : List Char) from rfl, List.nil_append,
      List.dropWhile_append_of_pos hpre]
    rfl
  | nm :: rest, pre, hWF, hpre => by
    obtain ⟨hne, hw⟩ := hWF nm (by simp)
    obtain ⟨c, cs, hd⟩ : ∃ c cs, nm.data = c :: cs := by
      cases hd : nm.data with
      | nil => exact absurd hd hne
      | cons a b => exact ⟨a, b, rfl⟩
    obtain ⟨t2, ht2, hcase⟩ : ∃ t2, (joinSpace (nm :: rest)).data ++ [' '] = nm.data ++ t2
        ∧ ((rest = [] ∧ t2 = [' '])
          ∨ ∃ nm2 rest2, rest = nm2 :: rest2
              ∧ t2 = ' ' :: ((joinSpace rest).data ++ [' '])) := by
      cases rest with
      | nil => exact ⟨[' '], by simp [joinSpace], Or.inl ⟨rfl, rfl⟩⟩
      | cons y ys =>
        refine ⟨' ' :: ((joinSpace (y :: ys)).data ++ [' ']), ?_, Or.inr ⟨y, ys, rfl, rfl⟩⟩
        show (nm ++ " " ++ joinSpace (y :: ys)).data ++ [' '] = _
        simp [String.data_append]
    have hwc : isWordChar c = true := hw c (by rw [hd]; exact List.mem_cons_self c cs)
    have hnotsp : ∀ x ∈ nm.data, (fun x => !isSpaceChar x) x = true := by
      intro x hx
      simp [word_not_space (hw x hx)]
    have hdw2 : (pre ++ ((joinSpace (nm :: rest)).data ++ [' '])).dropWhile isSpaceChar
        = c :: (cs ++ t2) := by
      rw [List.dropWhile_append_of_pos hpre, ht2, hd, List.cons_append,
        List.dropWhile_cons_of_neg (by simp [word_not_space hwc])]
    rw [pySplit_step hdw2]
    have hback : c :: (cs ++ t2) = nm.data ++ t2 := by rw [hd, List.cons_append]
    rw [hback]
    have htake : (nm.data ++ t2).takeWhile (fun x => !isSpaceChar x) = nm.data := by
      rw [List.takeWhile_append_of_pos hnotsp]
      have ht : t2.takeWhile (fun x => !isSpaceChar x) = [] := by
        rcases hcase with ⟨-, rfl⟩ | ⟨nm2, rest2, -, rfl⟩ <;> rfl
      rw [ht, List.append_nil]
    have hdrop : (nm.data ++ t2).dropWhile (fun x => !isSpaceChar x) = t2 := by
      rw [List.dropWhile_append_of_pos hnotsp]
      rcases hcase with ⟨-, rfl⟩ | ⟨nm2, rest2, -, rfl⟩ <;> rfl
    rw [htake, hdrop]
    have hmk : String.mk nm.data = nm := rfl
    rw [hmk]
    rcases hcase with ⟨hrest, rfl⟩ | ⟨nm2, rest2, hrest, rfl⟩
    · subst hrest
      have hnil : List.dropWhile isSpaceChar [' '] = [] := rfl
      rw [pySplit_nil hnil]
    · rw [show ' ' :: ((joinSpace rest).data ++ [' '])
          = [' '] ++ ((joinSpace rest).data ++ [' ']) from rfl]
      rw [pySplit_join_aux rest [' ']
        (fun x hx => hWF x (List.mem_cons_of_mem nm hx)) (by decide)]

theorem classify_format {names : List String}
    (hWF : ∀ nm ∈ names, nm.data ≠ [] ∧ ∀ c ∈ nm.data, isWordChar c = true)
    (hne : names ≠ []) :
    classifyLine ("FORMAT " ++ joinSpace names ++ " ;")
      = some (StmtMatch.format_stmt names) := by
  have hdata : ("FORMAT " ++ joinSpace names ++ " ;").data
      = 'F' :: 'O' :: 'R' :: 'M' :: 'A' :: 'T' :: ' '
          :: ((joinSpace names).data ++ [' ', ';']) := by
    simp only [String.data_append]
    rfl
  obtain ⟨nm0, rest0, hnames⟩ : ∃ nm0 rest0, names = nm0 :: rest0 := by
    cases names with
    | nil => exact absurd rfl hne
    | cons a b => exact ⟨a, b, rfl⟩
  obtain ⟨hne0, hw0⟩ := hWF nm0 (by rw [hnames]; simp)
  obtain ⟨t0, ht0⟩ := joinSpace_head nm0 rest0
  have m1 : matchEmpty ('F' :: 'O' :: 'R' :: 'M' :: 'A' :: 'T' :: ' '
      :: ((joinSpace names).data ++ [' ', ';'])) = none := matchEmpty_cons _ (by decide)
  have e1 : scanLit "FORMAT".data ('F' :: 'O' :: 'R' :: 'M' :: 'A' :: 'T' :: ' '
      :: ((joinSpace names).data ++ [' ', ';']))
      = some (' ' :: ((joinSpace names).data ++ [' ', ';'])) := scanLit_self "FORMAT".data _
  have e2 : scanPlus isSpaceChar (' ' :: ((joinSpace names).data ++ [' ', ';']))
      = some ([' '], (joinSpace names).data ++ [' ', ';']) := by
    refine scanPlus_space_one ?_
    rw [hnames, ht0, List.append_assoc]
    exact headFails_space_append_words hne0 hw0
  have e3 : scanFormatGroup ((joinSpace names).data ++ [' ', ';']) []
      = some (((joinSpace names).data) ++ [' '], [';']) := by
    have := scanFormatGroup_spec names [] hWF hne
    simpa using this
  have e4 : pySplit ((joinSpace names).data ++ [' ']) = names := by
    have := pySplit_join_aux names [] hWF (by simp)
    simpa using this
  have m2 : matchFormat ('F' :: 'O' :: 'R' :: 'M' :: 'A' :: 'T' :: ' '
      :: ((joinSpace names).data ++ [' ', ';'])) = some (StmtMatch.format_stmt names) := by
    simp only [matchFormat, e1, e2, e3, e4, Option.bind_eq_bind, Option.some_bind]
  unfold classifyLine
  rw [hdata]
  simp only [m1, m2, Option.none_orElse, Option.some_orElse]

/-! ## Sorted pin order and the physical-to-logical map -/

theorem map_fst_insertPinSorted (x : String × PinDecl) :
    ∀ (l : List (String × PinDecl)),
    (insertPinSorted x l).map (fun p => p.1) = insertStrSorted x.1 (l.map (fun p => p.1))
  | [] => rfl
  | y :: ys => by
    simp only [insertPinSorted, insertStrSorted, List.map_cons]
    by_cases h : strLtB y.1 x.1
    · simp [h, map_fst_insertPinSorted x ys]
    · simp [h]

theorem sortPins_map_fst : ∀ (l : List (String × PinDecl)),
    (sortPins l).map (fun p => p.1) = sortStrs (l.map (fun p => p.1))
  | [] => rfl
  | x :: xs => by
    simp only [sortPins, sortStrs, List.foldr_cons, List.map_cons]
    rw [show List.foldr insertPinSorted [] xs = sortPins xs from rfl,
      show List.foldr insertStrSorted [] (xs.map (fun p => p.1)) = sortStrs (xs.map (fun p => p.1)) from rfl,
      map_fst_insertPinSorted x (sortPins xs), sortPins_map_fst xs]

theorem insertPinSorted_perm (x : String × PinDecl) :
    ∀ (l : List (String × PinDecl)), List.Perm (insertPinSorted x l) (x :: l)
  | [] => List.Perm.refl _
  | y :: ys => by
    simp only [insertPinSorted]
    by_cases h : strLtB y.1 x.1
    · simp only [h, if_true]
      exact List.Perm.trans (List.Perm.cons y (insertPinSorted_perm x ys))
        (List.Perm.swap x y ys)
    · simp [h]

theorem sortPins_perm : ∀ (l : List (String × PinDecl)), List.Perm (sortPins l) l
  | [] => List.Perm.refl _
  | x :: xs => by
    simp only [sortPins, List.foldr_cons]
    exact List.Perm.trans
      (insertPinSorted_perm x (List.foldr insertPinSorted [] xs))
      (List.Perm.cons x (sortPins_perm xs))

theorem dictSet_not_mem {β : Type} {m : List (String × β)} {k : String} (v : β)
    (h : m.lookup k = none) : dictSet m k v = m ++ [(k, v)] := by
  induction m with
  | nil => rfl
  | cons p rest ih =>
    obtain ⟨a, b⟩ := p
    by_cases hak : k = a
    · rw [hak] at h
      simp [List.lookup] at h
    · have hbeq : (k == a) = false := beq_eq_false_iff_ne.mpr hak
      simp only [List.lookup, hbeq] at h
      have hne : ¬ a = k := fun hh => hak hh.symm
      simp only [dictSet, if_neg hne, List.cons_append]
      rw [ih h]

theorem lookup_singleton_ne {β : Type} {k k2 : String} (v : β) (h : k ≠ k2) :
    ([(k2, v)] : List (String × β)).lookup k = none := by
  simp [List.lookup, beq_eq_false_iff_ne.mpr h]

theorem lookup_map_inj {α β : Type} (l : List α) (key : α → String) (val : α → β)
    (x : α) (hnd : (l.map key).Nodup) (hx : x ∈ l) :
    (l.map (fun a => (key a, val a))).lookup (key x) = some (val x) := by
  induction l with
  | nil => simp at hx
  | cons y ys ih =>
    simp only [List.map_cons, List.nodup_cons] at hnd
    simp only [List.map_cons, List.lookup]
    rcases List.mem_cons.mp hx with rfl | hmem
    · simp
    · by_cases hkey : key x = key y
      · exact absurd (hkey ▸ List.mem_map_of_mem key hmem) hnd.1
      · rw [beq_eq_false_iff_ne.mpr hkey]
        exact ih hnd.2 hmem

theorem physToLogMap_go : ∀ (pins : List (String × PinDecl)) (m : List (String × String)),
    (∀ p ∈ pins, m.lookup p.2.name = none) →
    (pins.map (fun p => p.2.name)).Nodup →
    (∀ p ∈ pins, p.2.avc_name = none) →
    pins.foldl (fun m p => dictSet m (p.2.avc_name.getD p.2.name) p.1) m
      = m ++ pins.map (fun p => (p.2.name, p.1))
  | [], m, _, _, _ => by simp
  | p :: rest, m, hnone, hnd, havc => by
    simp only [List.map_cons, List.nodup_cons] at hnd
    simp only [List.foldl_cons]
    rw [havc p (List.mem_cons_self p rest)]
    simp only [Option.getD_none]
    rw [dictSet_not_mem p.1 (hnone p (List.mem_cons_self p rest))]
    rw [physToLogMap_go rest (m ++ [(p.2.name, p.1)])
      (by
        intro q hq
        have hqne : q.2.name ≠ p.2.name := by
          intro he
          exact hnd.1 (he ▸ List.mem_map_of_mem (fun r => r.2.name) hq)
        rw [List.lookup_append, hnone q (List.mem_cons_of_mem p hq),
          lookup_singleton_ne p.1 hqne]
        rfl)
      hnd.2 (fun q hq => havc q (List.mem_cons_of_mem p hq))]
    simp

theorem physToLogMap_eq (pins : List (String × PinDecl))
    (hnd : (pins.map (fun p => p.2.name)).Nodup)
    (havc : ∀ p ∈ pins, p.2.avc_name = none) :
    physToLogMap pins = pins.map (fun p => (p.2.name, p.1)) := by
  unfold physToLogMap
  rw [physToLogMap_go pins [] (fun p _ => rfl) hnd havc]
  simp

theorem buildPinMap_go : ∀ (ps : List (String × PinDecl))
    (p2l : List (String × String)) (m : List (String × Char))
    (order : List String) (i : Nat) (acc : List (String × Char)),
    order.drop i = ps.map (fun p => p.2.name) →
    (∀ p ∈ ps, p2l.lookup p.2.name = some p.1) →
    (∀ p ∈ ps, acc.lookup p.1 = none) →
    (ps.map (fun p => p.1)).Nodup →
    buildPinMap p2l order i (ps.map (fun p => (m.lookup p.1).getD '?')) acc
      = Except.ok (acc ++ ps.map (fun p => (p.1, (m.lookup p.1).getD '?')))
  | [], _, _, _, _, acc, _, _, _, _ => by simp [buildPinMap]
  | p :: rest, p2l, m, order, i, acc, hdrop, hp2l, hacc, hnd => by
    simp only [List.map_cons, List.nodup_cons] at hnd
    have h1 : order.get? i = some p.2.name :=
      get?_of_drop order i p.2.name (rest.map (fun q => q.2.name)) (by simpa using hdrop)
    have h2 : p2l.lookup p.2.name = some p.1 := hp2l p (List.mem_cons_self p rest)
    have h3 : dictSet acc p.1 ((m.lookup p.1).getD '?')
        = acc ++ [(p.1, (m.lookup p.1).getD '?')] :=
      dictSet_not_mem _ (hacc p (List.mem_cons_self p rest))
    have h4 := buildPinMap_go rest p2l m order (i + 1)
      (acc ++ [(p.1, (m.lookup p.1).getD '?')])
      (drop_succ_of_drop order i p.2.name (rest.map (fun q => q.2.name))
        (by simpa using hdrop))
      (fun q hq => hp2l q (List.mem_cons_of_mem p hq))
      (by
        intro q hq
        have hqne : q.1 ≠ p.1 := by
          intro he
          exact hnd.1 (he ▸ List.mem_map_of_mem (fun r => r.1) hq)
        rw [List.lookup_append, hacc q (List.mem_cons_of_mem p hq),
          lookup_singleton_ne _ hqne]
        rfl)
      hnd.2
    simp only [List.map_cons, buildPinMap, h1, h2, h3, h4]
    simp

theorem dropWhile_space_semi (l : List Char) :
    List.dropWhile isSpaceChar (l ++ [';']) = (List.dropWhile isSpaceChar l) ++ [';'] := by
  rw [List.dropWhile_append]
  split
  · rename_i hemp
    simp only [List.isEmpty_iff] at hemp
    rw [hemp]
    rfl
  · rfl

theorem classify_R_line {cs : List Char} {sm : StmtMatch}
    (h4 : matchNormalVec ('R' :: cs) = some sm) :
    (matchEmpty ('R' :: cs) <|> matchFormat ('R' :: cs) <|> matchPort ('R' :: cs)
      <|> matchNormalVec ('R' :: cs) <|> matchMact ('R' :: cs) <|> matchMrpt ('R' :: cs)
      <|> matchPadding ('R' :: cs) <|> matchLbgn ('R' :: cs) <|> matchLend ('R' :: cs))
      = some sm := by
  have m1 : matchEmpty ('R' :: cs) = none := matchEmpty_cons _ (by decide)
  have m2 : scanLit "FORMAT".data ('R' :: cs) = none :=
    scanLit_cons_ne "ORMAT".data _ (by decide)
  have m3 : scanLit "PORT".data ('R' :: cs) = none :=
    scanLit_cons_ne "ORT".data _ (by decide)
  simp only [matchFormat, matchPort, m1, m2, m3, h4, Option.bind_eq_bind,
    Option.none_bind, Option.none_orElse, Option.some_orElse]

theorem classify_normal_line (ds dv ps : List Char) (cmt : Option String)
    (hdsne : ds ≠ []) (hdsd : ∀ c ∈ ds, isDigitChar c = true)
    (hdvne : dv ≠ []) (hdvw : ∀ c ∈ dv, isWordChar c = true)
    (hpsne : ps ≠ []) (hpsw : ∀ c ∈ ps, isWordChar c = true) :
    classifyLine ("R" ++ String.mk ds ++ " " ++ String.mk dv ++ " " ++ String.mk ps ++ " "
        ++ (if strTruthy cmt then "[%] " ++ cmt.getD "" ++ " " else "") ++ ";")
      = some (StmtMatch.normal_vec (decToNat ds) (String.mk dv) ps (normComment cmt)) := by
  by_cases hc : strTruthy cmt = true
  · have hdata : ("R" ++ String.mk ds ++ " " ++ String.mk dv ++ " " ++ String.mk ps ++ " "
        ++ (if strTruthy cmt then "[%] " ++ cmt.getD "" ++ " " else "") ++ ";").data
        = 'R' :: (ds ++ (' ' :: (dv ++ (' ' :: (ps ++ (' ' :: ('[' :: '%' :: ']' :: ' '
            :: ((cmt.getD "").data ++ [' ', ';'])))))))) := by
      rw [hc]
      simp [String.data_append]
    have eA : scanLit ['R'] ('R' :: (ds ++ (' ' :: (dv ++ (' ' :: (ps ++ (' '
        :: ('[' :: '%' :: ']' :: ' ' :: ((cmt.getD "").data ++ [' ', ';'])))))))))
        = some (ds ++ (' ' :: (dv ++ (' ' :: (ps ++ (' ' :: ('[' :: '%' :: ']' :: ' '
            :: ((cmt.getD "").data ++ [' ', ';'])))))))) := scanLit_self ['R'] _
    have eB : scanPlus isDigitChar (ds ++ (' ' :: (dv ++ (' ' :: (ps ++ (' '
        :: ('[' :: '%' :: ']' :: ' ' :: ((cmt.getD "").data ++ [' ', ';'])))))))) 
        = some (ds, ' ' :: (dv ++ (' ' :: (ps ++ (' ' :: ('[' :: '%' :: ']' :: ' '
            :: ((cmt.getD "").data ++ [' ', ';'])))))))
        := scanPlus_exact hdsne hdsd rfl
    have eC : scanPlus isSpaceChar (' ' :: (dv ++ (' ' :: (ps ++ (' '
        :: ('[' :: '%' :: ']' :: ' ' :: ((cmt.getD "").data ++ [' ', ';'])))))))
        = some ([' '], dv ++ (' ' :: (ps ++ (' ' :: ('[' :: '%' :: ']' :: ' '
            :: ((cmt.getD "").data ++ [' ', ';']))))))
        := scanPlus_space_one (headFails_space_append_words hdvne hdvw)
    have eD : scanStar isWordChar (dv ++ (' ' :: (ps ++ (' ' :: ('[' :: '%' :: ']' :: ' '
        :: ((cmt.getD "").data ++ [' ', ';']))))))
        = (dv, ' ' :: (ps ++ (' ' :: ('[' :: '%' :: ']' :: ' '
            :: ((cmt.getD "").data ++ [' ', ';'])))))
        := scanStar_exact hdvw rfl
    have eE : scanPlus isSpaceChar (' ' :: (ps ++ (' ' :: ('[' :: '%' :: ']' :: ' '
        :: ((cmt.getD "").data ++ [' ', ';'])))))
        = some ([' '], ps ++ (' ' :: ('[' :: '%' :: ']' :: ' '
            :: ((cmt.getD "").data ++ [' ', ';']))))
        := scanPlus_space_one (headFails_space_append_words hpsne hpsw)
    have eF : scanPlus isWordChar (ps ++ (' ' :: ('[' :: '%' :: ']' :: ' '
        :: ((cmt.getD "").data ++ [' ', ';']))))
        = some (ps, ' ' :: ('[' :: '%' :: ']' :: ' ' :: ((cmt.getD "").data ++ [' ', ';'])))
        := scanPlus_exact hpsne hpsw rfl
    have eG : scanPlus isSpaceChar (' ' :: ('[' :: '%' :: ']' :: ' '
        :: ((cmt.getD "").data ++ [' ', ';'])))
        = some ([' '], '[' :: '%' :: ']' :: ' ' :: ((cmt.getD "").data ++ [' ', ';']))
        := scanPlus_space_one rfl
    have eH : scanLit ['[', '%', ']'] ('[' :: '%' :: ']' :: (' '
        :: ((cmt.getD "").data ++ [' ', ';'])))
        = some (' ' :: ((cmt.getD "").data ++ [' ', ';'])) := scanLit_self ['[', '%', ']'] _
    have eI : scanStar isSpaceChar (' ' :: ((cmt.getD "").data ++ [' ', ';']))
        = (List.takeWhile isSpaceChar (' ' :: ((cmt.getD "").data ++ [' ', ';'])),
           (List.dropWhile isSpaceChar ((cmt.getD "").data ++ [' '])) ++ [';']) := by
      unfold scanStar
      rw [List.dropWhile_cons_of_pos (by decide)]
      rw [show (cmt.getD "").data ++ [' ', ';'] = ((cmt.getD "").data ++ [' ']) ++ [';'] by
        simp]
      rw [dropWhile_space_semi]
    have eJ : splitLastSemi ((List.dropWhile isSpaceChar ((cmt.getD "").data ++ [' '])) ++ [';'])
        = some (List.dropWhile isSpaceChar ((cmt.getD "").data ++ [' ']), []) :=
      splitLastSemi_last _
    have hmain : matchNormalVec ('R' :: (ds ++ (' ' :: (dv ++ (' ' :: (ps ++ (' '
        :: ('[' :: '%' :: ']' :: ' ' :: ((cmt.getD "").data ++ [' ', ';'])))))))))
        = some (StmtMatch.normal_vec (decToNat ds) (String.mk dv) ps (normComment cmt)) := by
      simp only [matchNormalVec, eA, eB, eC, eD, eE, eF, eG, eH, eI, eJ,
        Option.bind_eq_bind, Option.some_bind, normComment, hc, if_true]
      rfl
    unfold classifyLine
    rw [hdata]
    exact classify_R_line hmain
  · have hcf : strTruthy cmt = false := by simpa using hc
    have hdata : ("R" ++ String.mk ds ++ " " ++ String.mk dv ++ " " ++ String.mk ps ++ " "
        ++ (if strTruthy cmt then "[%] " ++ cmt.getD "" ++ " " else "") ++ ";").data
        = 'R' :: (ds ++ (' ' :: (dv ++ (' ' :: (ps ++ [' ', ';']))))) := by
      rw [hcf]
      simp [String.data_append]
    have eA : scanLit ['R'] ('R' :: (ds ++ (' ' :: (dv ++ (' ' :: (ps ++ [' ', ';']))))))
        = some (ds ++ (' ' :: (dv ++ (' ' :: (ps ++ [' ', ';']))))) := scanLit_self ['R'] _
    have eB : scanPlus isDigitChar (ds ++ (' ' :: (dv ++ (' ' :: (ps ++ [' ', ';'])))))
        = some (ds, ' ' :: (dv ++ (' ' :: (ps ++ [' ', ';'])))) :=
      scanPlus_exact hdsne hdsd rfl
    have eC : scanPlus isSpaceChar (' ' :: (dv ++ (' ' :: (ps ++ [' ', ';']))))
        = some ([' '], dv ++ (' ' :: (ps ++ [' ', ';']))) :=
      scanPlus_space_one (headFails_space_append_words hdvne hdvw)
    have eD : scanStar isWordChar (dv ++ (' ' :: (ps ++ [' ', ';'])))
        = (dv, ' ' :: (ps ++ [' ', ';'])) := scanStar_exact hdvw rfl
    have eE : scanPlus isSpaceChar (' ' :: (ps ++ [' ', ';']))
        = some ([' '], ps ++ [' ', ';']) :=
      scanPlus_space_one (headFails_space_append_words hpsne hpsw)
    have eF : scanPlus isWordChar (ps ++ [' ', ';']) = some (ps, [' ', ';']) :=
      scanPlus_exact hpsne hpsw rfl
    have eG : scanPlus isSpaceChar [' ', ';'] = some ([' '], [';']) := rfl
    have eH : scanLit ['[', '%', ']'] [';'] = none := scanLit_cons_ne ['%', ']'] [] (by decide)
    have hmain : matchNormalVec ('R' :: (ds ++ (' ' :: (dv ++ (' ' :: (ps ++ [' ', ';']))))))
        = some (StmtMatch.normal_vec (decToNat ds) (String.mk dv) ps (normComment cmt)) := by
      simp only [matchNormalVec, eA, eB, eC, eD, eE, eF, eG, eH,
        Option.bind_eq_bind, Option.some_bind, normComment, hcf,
        if_false, Bool.false_eq_true]
      rfl
    unfold classifyLine
    rw [hdata]
    exact classify_R_line hmain

theorem classify_port {p : String} (hp : p ≠ "")
    (hw : ∀ c ∈ p.data, isWordChar c = true) :
    classifyLine ("PORT " ++ p ++ " ;") = some StmtMatch.port_stmt := by
  have hpd : p.data ≠ [] := fun h => hp (by cases p with | mk l => simp_all)
  have hdata : ("PORT " ++ p ++ " ;").data
      = 'P' :: 'O' :: 'R' :: 'T' :: ' ' :: (p.data ++ [' ', ';']) := by
    simp only [String.data_append]
    rfl
  have m1 : matchEmpty ('P' :: 'O' :: 'R' :: 'T' :: ' ' :: (p.data ++ [' ', ';']))
      = none := matchEmpty_cons _ (by decide)
  have e2a : scanLit "FORMAT".data ('P' :: 'O' :: 'R' :: 'T' :: ' ' :: (p.data ++ [' ', ';']))
      = none := scanLit_cons_ne "ORMAT".data _ (by decide)
  have e1 : scanLit "PORT".data ('P' :: 'O' :: 'R' :: 'T' :: ' ' :: (p.data ++ [' ', ';']))
      = some (' ' :: (p.data ++ [' ', ';'])) := scanLit_self "PORT".data _
  have e2 : scanPlus isSpaceChar (' ' :: (p.data ++ [' ', ';']))
      = some ([' '], p.data ++ [' ', ';']) :=
    scanPlus_space_one (headFails_space_append_words hpd hw)
  have e3 : scanStar isWordChar (p.data ++ [' ', ';']) = (p.data, [' ', ';']) :=
    scanStar_exact hw rfl
  have e4 : scanStar isSpaceChar [' ', ';'] = ([' '], [';']) := by decide
  have e5 : scanLit [';'] [';'] = some [] := rfl
  have m3 : matchPort ('P' :: 'O' :: 'R' :: 'T' :: ' ' :: (p.data ++ [' ', ';']))
      = some StmtMatch.port_stmt := by
    simp only [matchPort, e1, e2, e3, e4, e5, Option.bind_eq_bind, Option.some_bind]
  unfold classifyLine
  rw [hdata]
  simp only [matchFormat, m1, e2a, m3,
    Option.bind_eq_bind, Option.none_bind, Option.none_orElse, Option.some_orElse]

/-! ## Well-formedness extraction and writer-line facts -/

theorem normalVecWF_lookup {pins : List (String × PinDecl)} {v : NormalVector}
    (h : normalVecWF pins v = true) :
    ∀ k ∈ pins.map (fun p => p.1),
      ∃ ch, v.vector.lookup k = some ch ∧ isWordChar ch = true := by
  intro k hk
  simp only [normalVecWF, Bool.and_eq_true, List.all_eq_true] at h
  have hmatch := h.1 k hk
  cases hl : v.vector.lookup k with
  | none =>
    rw [hl] at hmatch
    simp at hmatch
  | some ch =>
    rw [hl] at hmatch
    exact ⟨ch, rfl, hmatch⟩

theorem pinStateString_eq (pins : List (String × PinDecl)) (m : List (String × Char)) :
    pinStateString pins m
      = String.mk ((sortPins pins).map (fun p => (m.lookup p.1).getD '?')) := by
  unfold pinStateString
  rw [← sortPins_map_fst, List.map_map]
  rfl

theorem sortPins_ne_nil {pins : List (String × PinDecl)} (h : pins ≠ []) :
    sortPins pins ≠ [] := by
  intro he
  have hlen := (sortPins_perm pins).length_eq
  rw [he] at hlen
  cases pins with
  | nil => exact h rfl
  | cons a b => simp at hlen

theorem pinChars_word {pins : List (String × PinDecl)} {m : List (String × Char)}
    (hlk : ∀ k ∈ pins.map (fun p => p.1),
      ∃ ch, m.lookup k = some ch ∧ isWordChar ch = true) :
    ∀ c ∈ (sortPins pins).map (fun p => (m.lookup p.1).getD '?'), isWordChar c = true := by
  intro c hc
  obtain ⟨p, hp, hpc⟩ := List.mem_map.mp hc
  have hpmem : p ∈ pins := (sortPins_perm pins).mem_iff.mp hp
  obtain ⟨ch, hch, hw⟩ := hlk p.1 (List.mem_map_of_mem (fun q => q.1) hpmem)
  rw [← hpc, hch]
  exact hw

theorem pinChars_ne_nil {pins : List (String × PinDecl)} (m : List (String × Char))
    (h : pins ≠ []) :
    (sortPins pins).map (fun p => (m.lookup p.1).getD '?') ≠ [] := by
  intro he
  exact sortPins_ne_nil h (List.map_eq_nil_iff.mp he)

theorem classify_normalVecLine (pins : List (String × PinDecl)) (dvc : String)
    (v : NormalVector)
    (hpne : pins ≠ [])
    (hdvne : dvc.data ≠ []) (hdvw : ∀ c ∈ dvc.data, isWordChar c = true)
    (hv : normalVecWF pins v = true) :
    classifyLine (normalVecLine pins dvc v)
      = some (StmtMatch.normal_vec v.vrepeat dvc
          ((sortPins pins).map (fun p => (v.vector.lookup p.1).getD '?'))
          (normComment v.comment)) := by
  have hlk := normalVecWF_lookup hv
  have h1 := classify_normal_line (natDec v.vrepeat) dvc.data
    ((sortPins pins).map (fun p => (v.vector.lookup p.1).getD '?')) v.comment
    (natDec_ne_nil _) (natDec_digits _) hdvne hdvw
    (pinChars_ne_nil v.vector hpne) (pinChars_word hlk)
  rw [decToNat_natDec] at h1
  have hline : normalVecLine pins dvc v
      = "R" ++ String.mk (natDec v.vrepeat) ++ " " ++ String.mk dvc.data ++ " "
        ++ String.mk ((sortPins pins).map (fun p => (v.vector.lookup p.1).getD '?')) ++ " "
        ++ (if strTruthy v.comment then "[%] " ++ v.comment.getD "" ++ " " else "")
        ++ ";" := by
    unfold normalVecLine
    rw [pinStateString_eq]
  rw [hline]
  exact h1

theorem buildPinMap_pinState (pins : List (String × PinDecl)) (m : List (String × Char))
    (hkeys : (pins.map (fun p => p.1)).Nodup)
    (hnames : (pins.map (fun p => p.2.name)).Nodup)
    (havc : ∀ p ∈ pins, p.2.avc_name = none) :
    buildPinMap (physToLogMap pins) ((sortPins pins).map (fun p => p.2.name)) 0
      ((sortPins pins).map (fun p => (m.lookup p.1).getD '?')) []
      = Except.ok (parsedPinMap pins m) := by
  have h := buildPinMap_go (sortPins pins) (physToLogMap pins) m
    ((sortPins pins).map (fun p => p.2.name)) 0 []
    (by rw [List.drop_zero])
    (by
      intro p hp
      rw [physToLogMap_eq pins hnames havc]
      exact lookup_map_inj pins (fun q => q.2.name) (fun q => q.1) p hnames
        ((sortPins_perm pins).mem_iff.mp hp))
    (fun p _ => rfl)
    (by
      have hperm : List.Perm ((sortPins pins).map (fun p => p.1))
          (pins.map (fun p => p.1)) := (sortPins_perm pins).map _
      exact hperm.nodup_iff.mpr hkeys)
  simpa [parsedPinMap] using h

/-! ## The reader consumes the writer lines -/

/-- What remains after the reader consumes a stop line (or end of input). -/
def stopRest : List String → List String
  | [] => []
  | _ :: ts => ts

/-- A tail the recursive generator stops at: end of input, or a line the
matcher table reads as `MRPT`, `PADDING` or `LEND`. -/
def stopTail (tail : List String) : Prop :=
  tail = [] ∨ ∃ l ts, tail = l :: ts
    ∧ ((∃ k, classifyLine l = some (StmtMatch.match_loop_idle_begin k))
      ∨ classifyLine l = some StmtMatch.match_loop_end
      ∨ classifyLine l = some StmtMatch.loop_end)

theorem stopRest_le (ws tail : List String) :
    (stopRest tail).length ≤ (ws ++ tail).length := by
  cases tail with
  | nil => simp [stopRest]
  | cons l ts =>
    simp only [stopRest, List.length_append, List.length_cons]
    omega


theorem parseVecs_nil (pins : List (String × PinDecl)) (po : Option (List String)) :
    parseVecs pins [] po = Except.ok ([], po, ⟨[], Nat.le_refl 0⟩) := by
  rw [parseVecs.eq_def]

theorem parseVecs_stop_idle {l : String} {k : Nat} (pins : List (String × PinDecl))
    (ts : List String) (po : Option (List String))
    (h : classifyLine l = some (StmtMatch.match_loop_idle_begin k)) :
    parseVecs pins (l :: ts) po
      = Except.ok ([], po, ⟨ts, Nat.le_succ_of_le (Nat.le_refl ts.length)⟩) := by
  rw [parseVecs.eq_def]
  simp only [h]

theorem parseVecs_stop_mlend {l : String} (pins : List (String × PinDecl))
    (ts : List String) (po : Option (List String))
    (h : classifyLine l = some StmtMatch.match_loop_end) :
    parseVecs pins (l :: ts) po
      = Except.ok ([], po, ⟨ts, Nat.le_succ_of_le (Nat.le_refl ts.length)⟩) := by
  rw [parseVecs.eq_def]
  simp only [h]

theorem parseVecs_stop_lend {l : String} (pins : List (String × PinDecl))
    (ts : List String) (po : Option (List String))
    (h : classifyLine l = some StmtMatch.loop_end) :
    parseVecs pins (l :: ts) po
      = Except.ok ([], po, ⟨ts, Nat.le_succ_of_le (Nat.le_refl ts.length)⟩) := by
  rw [parseVecs.eq_def]
  simp only [h]

theorem parseVecs_normal_step {l : String} {rep : Nat} {dvcs : String}
    {chars : List Char} {cmt : Option String} {o : String} {os : List String}
    {m : List (String × Char)} {vs : List Vector} {po1 : Option (List String)}
    (pins : List (String × PinDecl)) (rest : List String)
    {r1 : { rest2 : List String // rest2.length ≤ rest.length }}
    (hcl : classifyLine l = some (StmtMatch.normal_vec rep dvcs chars cmt))
    (hbpm : buildPinMap (physToLogMap pins) (o :: os) 0 chars [] = Except.ok m)
    (hrec : parseVecs pins rest (some (o :: os)) = Except.ok (vs, po1, r1)) :
    parseVecs pins (l :: rest) (some (o :: os))
      = Except.ok (Vector.vec { vector := m, vrepeat := rep, comment := cmt } :: vs,
          po1, ⟨r1.1, Nat.le_succ_of_le r1.2⟩) := by
  rw [parseVecs.eq_def]
  simp only [hcl, hbpm, hrec]

theorem parseVecs_mact_step {l : String} {r : Nat} {po po1 po2 po3 : Option (List String)}
    {cond idle vs : List Vector}
    (pins : List (String × PinDecl)) (rest : List String)
    {r1 : { rest2 : List String // rest2.length ≤ rest.length }}
    {r2 : { rest2 : List String // rest2.length ≤ r1.1.length }}
    {r3 : { rest2 : List String // rest2.length ≤ r2.1.length }}
    (hcl : classifyLine l = some (StmtMatch.match_loop_begin r))
    (h1 : parseVecs pins rest po = Except.ok (cond, po1, r1))
    (h2 : parseVecs pins r1.1 po1 = Except.ok (idle, po2, r2))
    (h3 : parseVecs pins r2.1 po2 = Except.ok (vs, po3, r3)) :
    parseVecs pins (l :: rest) po
      = Except.ok (Vector.match_loop cond idle r :: vs, po3,
          ⟨r3.1, Nat.le_succ_of_le (Nat.le_trans r3.2 (Nat.le_trans r2.2 r1.2))⟩) := by
  rw [parseVecs.eq_def]
  simp only [hcl, h1, h2, h3]

theorem parseVecs_loop_step {l : String} {r : Nat} {po po1 po2 : Option (List String)}
    {body vs : List Vector}
    (pins : List (String × PinDecl)) (rest : List String)
    {r1 : { rest2 : List String // rest2.length ≤ rest.length }}
    {r2 : { rest2 : List String // rest2.length ≤ r1.1.length }}
    (hcl : classifyLine l = some (StmtMatch.loop_begin r))
    (h1 : parseVecs pins rest po = Except.ok (body, po1, r1))
    (h2 : parseVecs pins r1.1 po1 = Except.ok (vs, po2, r2)) :
    parseVecs pins (l :: rest) po
      = Except.ok (Vector.loop body r :: vs, po2,
          ⟨r2.1, Nat.le_succ_of_le (Nat.le_trans r2.2 r1.2)⟩) := by
  rw [parseVecs.eq_def]
  simp only [hcl, h1, h2]

theorem parseVecs_port_step {l : String} {po po1 : Option (List String)} {vs : List Vector}
    (pins : List (String × PinDecl)) (rest : List String)
    {r1 : { rest2 : List String // rest2.length ≤ rest.length }}
    (hcl : classifyLine l = some StmtMatch.port_stmt)
    (hrec : parseVecs pins rest po = Except.ok (vs, po1, r1)) :
    parseVecs pins (l :: rest) po
      = Except.ok (vs, po1, ⟨r1.1, Nat.le_succ_of_le r1.2⟩) := by
  rw [parseVecs.eq_def]
  simp only [hcl, hrec]

theorem parseVecs_format_step {l : String} {ports : List String}
    {po1 : Option (List String)} {vs : List Vector}
    (pins : List (String × PinDecl)) (rest : List String)
    (po : Option (List String))
    {r1 : { rest2 : List String // rest2.length ≤ rest.length }}
    (hcl : classifyLine l = some (StmtMatch.format_stmt ports))
    (hrec : parseVecs pins rest (some ports) = Except.ok (vs, po1, r1)) :
    parseVecs pins (l :: rest) po
      = Except.ok (vs, po1, ⟨r1.1, Nat.le_succ_of_le r1.2⟩) := by
  rw [parseVecs.eq_def]
  simp only [hcl, hrec]


theorem parseVecsE_ok {pins : List (String × PinDecl)} {lines : List String}
    {po po1 : Option (List String)} {vs : List Vector} {restv : List String}
    (h : parseVecsE pins lines po = Except.ok (vs, po1, restv)) :
    ∃ pf : restv.length ≤ lines.length,
      parseVecs pins lines po = Except.ok (vs, po1, ⟨restv, pf⟩) := by
  unfold parseVecsE at h
  cases hp : parseVecs pins lines po with
  | error e =>
    rw [hp] at h
    simp at h
  | ok t =>
    obtain ⟨vs2, po2, r2⟩ := t
    rw [hp] at h
    simp only [Except.ok.injEq, Prod.mk.injEq] at h
    obtain ⟨rfl, rfl, hr⟩ := h
    refine ⟨hr ▸ r2.2, ?_⟩
    have hr2 : r2 = ⟨restv, hr ▸ r2.2⟩ := Subtype.ext hr
    exact congrArg (fun x => Except.ok (vs2, po2, x)) hr2

theorem parseVecsE_of {pins : List (String × PinDecl)} {lines : List String}
    {po po1 : Option (List String)} {vs : List Vector}
    {r : { rest2 : List String // rest2.length ≤ lines.length }}
    (h : parseVecs pins lines po = Except.ok (vs, po1, r)) :
    parseVecsE pins lines po = Except.ok (vs, po1, r.1) := by
  unfold parseVecsE
  rw [h]

theorem readerVectors_of {pins : List (String × PinDecl)} {lines : List String}
    {po1 : Option (List String)} {vs : List Vector} {restv : List String}
    (h : parseVecsE pins lines none = Except.ok (vs, po1, restv)) :
    readerVectors pins lines = Except.ok vs := by
  obtain ⟨pf, hp⟩ := parseVecsE_ok h
  unfold readerVectors
  rw [hp]

/-- Core of the AVC round trip: the reader, run on the writer's lines for a
vector stream `S` followed by a stop tail, yields exactly the normalised
stream, leaves `pin_order` unchanged, and consumes the stop line. -/
theorem parse_write_vectors (pins : List (String × PinDecl)) (dvc : String)
    (hpne : pins ≠ [])
    (hkeys : (pins.map (fun p => p.1)).Nodup)
    (hnames : (pins.map (fun p => p.2.name)).Nodup)
    (havc : ∀ p ∈ pins, p.2.avc_name = none)
    (hdvne : dvc.data ≠ []) (hdvw : ∀ c ∈ dvc.data, isWordChar c = true) :
    ∀ (S : List Vector), vecListWF pins S = true →
    ∀ (tail : List String), stopTail tail →
    parseVecsE pins (write_vectors pins dvc S ++ tail)
        (some ((sortPins pins).map (fun p => p.2.name)))
      = Except.ok (parsedVecList pins S,
          some ((sortPins pins).map (fun p => p.2.name)), stopRest tail)
  | [], _, tail, htail => by
    have hlines : write_vectors pins dvc [] ++ tail = tail := by
      simp [write_vectors]
    rw [hlines]
    rcases htail with rfl | ⟨l, ts, rfl, hsm⟩
    · rw [parseVecsE_of (parseVecs_nil pins _)]
      rfl
    · rcases hsm with ⟨k, hcl⟩ | hcl | hcl
      · rw [parseVecsE_of (parseVecs_stop_idle pins ts _ hcl)]
        rfl
      · rw [parseVecsE_of (parseVecs_stop_mlend pins ts _ hcl)]
        rfl
      · rw [parseVecsE_of (parseVecs_stop_lend pins ts _ hcl)]
        rfl
  | Vector.vec v :: S2, hWF, tail, htail => by
    have hWF2 : vecWF pins (Vector.vec v) = true ∧ vecListWF pins S2 = true := by
      simpa [vecListWF, Bool.and_eq_true] using hWF
    have hnv : normalVecWF pins v = true := by
      have hv1 := hWF2.1
      simpa [vecWF] using hv1
    obtain ⟨o, os, hm⟩ : ∃ o os, (sortPins pins).map (fun p => p.2.name) = o :: os := by
      cases hmm : (sortPins pins).map (fun p => p.2.name) with
      | nil => exact absurd (List.map_eq_nil_iff.mp hmm) (sortPins_ne_nil hpne)
      | cons a b => exact ⟨a, b, rfl⟩
    have hcl := classify_normalVecLine pins dvc v hpne hdvne hdvw hnv
    have hbpm : buildPinMap (physToLogMap pins) (o :: os) 0
        ((sortPins pins).map (fun p => (v.vector.lookup p.1).getD '?')) []
        = Except.ok (parsedPinMap pins v.vector) := by
      rw [← hm]
      exact buildPinMap_pinState pins v.vector hkeys hnames havc
    have hrecE := parse_write_vectors pins dvc hpne hkeys hnames havc hdvne hdvw S2
      hWF2.2 tail htail
    rw [hm] at hrecE
    obtain ⟨pf, hrec⟩ := parseVecsE_ok hrecE
    have hlines : write_vectors pins dvc (Vector.vec v :: S2) ++ tail
        = normalVecLine pins dvc v :: (write_vectors pins dvc S2 ++ tail) := by
      simp [write_vectors]
    rw [hlines, hm]
    rw [parseVecsE_of
      (parseVecs_normal_step pins (write_vectors pins dvc S2 ++ tail) hcl hbpm hrec)]
    simp only [parsedVecList, parsedVec]
  | Vector.match_loop cond idle r :: S2, hWF, tail, htail => by
    have hWF2 : vecWF pins (Vector.match_loop cond idle r) = true
        ∧ vecListWF pins S2 = true := by
      simpa [vecListWF, Bool.and_eq_true] using hWF
    have hWFci : vecListWF pins cond = true ∧ vecListWF pins idle = true := by
      have hv1 := hWF2.1
      simpa [vecWF, Bool.and_eq_true] using hv1
    have h1E := parse_write_vectors pins dvc hpne hkeys hnames havc hdvne hdvw cond
      hWFci.1
      (("SQPG MRPT " ++ String.mk (natDec idle.length) ++ " ;")
        :: (write_vectors pins dvc idle
          ++ ("SQPG PADDING ;" :: (write_vectors pins dvc S2 ++ tail))))
      (Or.inr ⟨_, _, rfl, Or.inl ⟨idle.length, classify_mrpt idle.length⟩⟩)
    have h2E := parse_write_vectors pins dvc hpne hkeys hnames havc hdvne hdvw idle
      hWFci.2
      ("SQPG PADDING ;" :: (write_vectors pins dvc S2 ++ tail))
      (Or.inr ⟨_, _, rfl, Or.inr (Or.inl classify_padding)⟩)
    have h3E := parse_write_vectors pins dvc hpne hkeys hnames havc hdvne hdvw S2
      hWF2.2 tail htail
    obtain ⟨pf1, h1⟩ := parseVecsE_ok h1E
    obtain ⟨pf2, h2⟩ := parseVecsE_ok h2E
    obtain ⟨pf3, h3⟩ := parseVecsE_ok h3E
    have hlines : write_vectors pins dvc (Vector.match_loop cond idle r :: S2) ++ tail
        = ("SQPG MACT " ++ String.mk (natDec r) ++ " ;")
          :: (write_vectors pins dvc cond
            ++ (("SQPG MRPT " ++ String.mk (natDec idle.length) ++ " ;")
              :: (write_vectors pins dvc idle
                ++ ("SQPG PADDING ;" :: (write_vectors pins dvc S2 ++ tail))))) := by
      simp [write_vectors]
    rw [hlines]
    rw [parseVecsE_of (parseVecs_mact_step pins _ (classify_mact r) h1 h2 h3)]
    simp only [parsedVecList, parsedVec]
  | Vector.loop body r :: S2, hWF, tail, htail => by
    have hWF2 : vecWF pins (Vector.loop body r) = true ∧ vecListWF pins S2 = true := by
      simpa [vecListWF, Bool.and_eq_true] using hWF
    have hWFb : vecListWF pins body = true := by
      have hv1 := hWF2.1
      simpa [vecWF] using hv1
    have h1E := parse_write_vectors pins dvc hpne hkeys hnames havc hdvne hdvw body
      hWFb
      ("SQPG LEND ;" :: (write_vectors pins dvc S2 ++ tail))
      (Or.inr ⟨_, _, rfl, Or.inr (Or.inr classify_lend)⟩)
    have h2E := parse_write_vectors pins dvc hpne hkeys hnames havc hdvne hdvw S2
      hWF2.2 tail htail
    obtain ⟨pf1, h1⟩ := parseVecsE_ok h1E
    obtain ⟨pf2, h2⟩ := parseVecsE_ok h2E
    have hlines : write_vectors pins dvc (Vector.loop body r :: S2) ++ tail
        = ("SQPG LBGN " ++ String.mk (natDec r) ++ " ;")
          :: (write_vectors pins dvc body
            ++ ("SQPG LEND ;" :: (write_vectors pins dvc S2 ++ tail))) := by
      simp [write_vectors]
    rw [hlines]
    rw [parseVecsE_of (parseVecs_loop_step pins _ (classify_lbgn r) h1 h2)]
    simp only [parsedVecList, parsedVec]
termination_by S => sizeOf S
decreasing_by
  all_goals simp
  all_goals omega


theorem data_ne_nil {s : String} (h : s ≠ "") : s.data ≠ [] := by
  intro hd
  apply h
  cases s with
  | mk l =>
    have hl : l = [] := hd
    rw [hl]

/-- **C5.** The AVC round trip: for every vector stream `S` the builder can
produce, writing `S` with `HP93000VectorWriter.write_vectors` (after the
`_write_header` lines) and parsing the lines back with
`HP93000VectorReader.vectors` succeeds and yields `S` again up to comment
normalization: every `NormalVector` comes back with the same repeat count and
the comment normalised by the `\[%]\s*(.*);` capture (leading whitespace
stripped, a trailing space appended), loops and matched loops reconstruct with
identical bodies and counts, and the re-keyed pin map of every normal vector
agrees with the original on every declared logical pin.  The hypotheses are
the writer's own preconditions: at least one pin, unique logical and physical
word-character names without separate AVC names, word-character device-cycle
and port names, and vectors whose pin states are word characters with
newline-free comments. -/
theorem C5_avc_round_trip (pins : List (String × PinDecl)) (dvc : String)
    (port : Option String) (S : List Vector)
    (hpins : pinsWF pins)
    (hdvc : dvc ≠ "" ∧ ∀ c ∈ dvc.data, isWordChar c = true)
    (hport : ∀ p, port = some p → p ≠ "" ∧ ∀ c ∈ p.data, isWordChar c = true)
    (hS : vecListWF pins S = true) :
    readerVectors pins (write_header pins port ++ write_vectors pins dvc S)
      = Except.ok (parsedVecList pins S)
    ∧ ∀ (m : List (String × Char)) (k : String), k ∈ pins.map (fun p => p.1) →
        (∃ ch, m.lookup k = some ch) →
        (parsedPinMap pins m).lookup k = m.lookup k := by
  obtain ⟨hpne, hkeys, hnames, hprops⟩ := hpins
  constructor
  · have hdvne : dvc.data ≠ [] := data_ne_nil hdvc.1
    have hnamesWF : ∀ nm ∈ (sortPins pins).map (fun p => p.2.name),
        nm.data ≠ [] ∧ ∀ c ∈ nm.data, isWordChar c = true := by
      intro nm hnm
      obtain ⟨q, hq, rfl⟩ := List.mem_map.mp hnm
      have hqp : q ∈ pins := (sortPins_perm pins).mem_iff.mp hq
      obtain ⟨-, hne, hw⟩ := hprops q hqp
      exact ⟨data_ne_nil hne, hw⟩
    have hnamesne : (sortPins pins).map (fun p => p.2.name) ≠ [] := by
      intro he
      exact sortPins_ne_nil hpne (List.map_eq_nil_iff.mp he)
    have hclF := classify_format hnamesWF hnamesne
    have hmainE := parse_write_vectors pins dvc hpne hkeys hnames
      (fun p hp => (hprops p hp).1) hdvne hdvc.2 S hS [] (Or.inl rfl)
    rw [List.append_nil] at hmainE
    obtain ⟨pf0, hmain⟩ := parseVecsE_ok hmainE
    have hfmt := parseVecs_format_step pins (write_vectors pins dvc S) none hclF hmain
    cases port with
    | none =>
      have hlines : write_header pins none ++ write_vectors pins dvc S
          = ("FORMAT " ++ joinSpace ((sortPins pins).map (fun p => p.2.name)) ++ " ;")
            :: write_vectors pins dvc S := by
        simp [write_header]
      rw [hlines]
      exact readerVectors_of (parseVecsE_of hfmt)
    | some p =>
      obtain ⟨hpne2, hpw⟩ := hport p rfl
      have hclP := classify_port hpne2 hpw
      have hprt := parseVecs_port_step pins
        (("FORMAT " ++ joinSpace ((sortPins pins).map (fun p => p.2.name)) ++ " ;")
          :: write_vectors pins dvc S) hclP hfmt
      have hlines : write_header pins (some p) ++ write_vectors pins dvc S
          = ("PORT " ++ p ++ " ;")
            :: (("FORMAT " ++ joinSpace ((sortPins pins).map (fun q => q.2.name)) ++ " ;")
              :: write_vectors pins dvc S) := by
        simp [write_header]
      rw [hlines]
      exact readerVectors_of (parseVecsE_of hprt)
  · intro m k hk hch
    obtain ⟨ch, hch⟩ := hch
    obtain ⟨q, hq, rfl⟩ := List.mem_map.mp hk
    have hqs : q ∈ sortPins pins := (sortPins_perm pins).mem_iff.mpr hq
    have hnd : ((sortPins pins).map (fun p => p.1)).Nodup :=
      (((sortPins_perm pins).map (fun p => p.1)).nodup_iff).mpr hkeys
    have hlk := lookup_map_inj (sortPins pins) (fun p => p.1)
      (fun p => (m.lookup p.1).getD '?') q hnd hqs
    unfold parsedPinMap
    rw [hlk]
    simp [hch]

/-- A concrete normal vector over the example pins, with a comment. -/
def c5vecA : NormalVector :=
  { vector := [("chip_reset", '1'), ("trst", '1'), ("tms", '0'), ("tck", '1'),
               ("tdi", '0'), ("tdo", 'X')],
    vrepeat := 3, comment := some "hello world" }

/-- A concrete normal vector over the example pins, without a comment. -/
def c5vecB : NormalVector :=
  { vector := [("chip_reset", '0'), ("trst", '1'), ("tms", '1'), ("tck", '0'),
               ("tdi", '1'), ("tdo", 'H')],
    vrepeat := 1, comment := none }

/-- A concrete stream with a plain vector, a matched loop and a loop. -/
def c5S : List Vector :=
  [Vector.vec c5vecA,
   Vector.match_loop [Vector.vec c5vecB] [Vector.vec c5vecB] 5,
   Vector.loop [Vector.vec c5vecA] 2]

theorem C5_avc_round_trip_witness :
    pinsWF examplePins ∧ vecListWF examplePins c5S = true
    ∧ readerVectors examplePins
        (write_header examplePins (some "tp0") ++ write_vectors examplePins "dvc_1" c5S)
      = Except.ok (parsedVecList examplePins c5S) :=
  ⟨by unfold pinsWF; decide, by decide,
    (C5_avc_round_trip examplePins "dvc_1" (some "tp0") c5S (by unfold pinsWF; decide)
      ⟨by decide, by decide⟩
      (by
        intro p hp
        injection hp with hp2
        rw [← hp2]
        exact ⟨by decide, by decide⟩)
      (by decide)).1⟩


end Dumpling
